import Mathlib

/-!
turbocookedrabbit: `RabbitService` and `ChannelHost`.

A shallow embedding of `service/rabbitservice.go` and `pools/channelhost.go`.

* A Go buffered channel is a record of its pending entries (oldest first), its
  capacity and whether it has been closed.  A send outside a `select` that finds
  the buffer full parks the sending goroutine; operations that can park return an
  `Outcome`, whose `blocked` case carries the state at the park.
* Calls into collaborators whose code lives in other packages (publisher,
  channel pool, consumer, amqp) are recorded in call logs kept in the state, and
  their results are parameters of the model.
* `uint64` counters are natural numbers reduced modulo `2 ^ 64` at every update.
* The connection pool, the channel pool and `Consumer.GetBatch`, whose sources are not at hand,
  are modelled after the specification; each such definition says so.
* `time.Sleep` changes no state and is left out; receivers and collaborators are non-nil, as
  `NewRabbitService` and `NewChannelHost` build them.
-/

namespace TurboCookedRabbit

/-! ## Go channels -/

/-- Buffered Go channel: `buf` holds the pending entries, oldest first. -/
structure Chan (α : Type) where
  buf : List α
  cap : Nat
  closed : Bool
deriving DecidableEq, Repr

/-- Result of an operation that may park its goroutine on a channel send. -/
inductive Outcome (σ : Type) where
  | returned (s : σ)
  | blocked (s : σ)
deriving DecidableEq, Repr

/-- Sequencing of operations that may park: a parked prefix stays parked. -/
def Outcome.andThen {σ τ : Type} (o : Outcome σ) (park : σ → τ) (f : σ → Outcome τ) : Outcome τ :=
  match o with
  | .returned s => f s
  | .blocked s => .blocked (park s)

/-- Whether the operation came back to its caller. -/
def Outcome.isReturned {σ : Type} : Outcome σ → Bool
  | .returned _ => true
  | .blocked _ => false

/-- State carried by an outcome. -/
def Outcome.state {σ : Type} : Outcome σ → σ
  | .returned s => s
  | .blocked s => s

/-- The Go expression `make(chan T, n)`. -/
def Chan.make {α : Type} (n : Nat) : Chan α :=
  { buf := [], cap := n, closed := false }

/-- The Go statement `c <- v` with no receiver waiting: enqueue when there is room, else park
(`none`). -/
def Chan.send {α : Type} (c : Chan α) (v : α) : Option (Chan α) :=
  if c.buf.length < c.cap then some { c with buf := c.buf ++ [v] } else none

/-- The Go clause `case v := <-c` of a `select` that has a `default`: the oldest pending entry if
any; the zero value when the channel is closed and drained; `none` (take `default`) otherwise. -/
def Chan.tryRecv {α : Type} (zero : α) (c : Chan α) : Option (α × Chan α) :=
  match c.buf with
  | v :: rest => some (v, { c with buf := rest })
  | [] => if c.closed then some (zero, c) else none

/-! ## Data model (`models`) -/

/-- Go `[]byte`: `none` is the nil slice, `some []` a non-nil slice of length 0. -/
abbrev Bytes := Option (List Nat)

/-- Go `error`: `none` is nil, `some msg` is `errors.New(msg)`. -/
abbrev GoError := Option String

structure Envelope where
  Exchange : String
  RoutingKey : String
  ContentType : String
  Mandatory : Bool
  Immediate : Bool
deriving DecidableEq, Repr

structure Letter where
  LetterID : Nat
  RetryCount : Nat
  Body : Bytes
  Envelope : Envelope
deriving DecidableEq, Repr

structure Notification where
  LetterID : Nat
  Success : Bool
  Error : GoError
deriving DecidableEq, Repr

structure ConsumerConfig where
  QueueName : String
  ConsumerName : String
  AutoAck : Bool
deriving DecidableEq, Repr

structure ServiceConfig where
  ErrorBuffer : Nat
deriving DecidableEq, Repr

/-- Go `map[string]T`, as an association list (first binding of a key wins).  A `range` over the
map visits the entries in list order; Go leaves that order unspecified. -/
abbrev GoMap (β : Type) := List (String × β)

/-- Lookup `m[k]` with the `ok` flag as `Option`. -/
def GoMap.get {β : Type} (m : GoMap β) (k : String) : Option β :=
  (m.find? (fun p => p.1 == k)).map Prod.snd

/-- Assignment `m[k] = v`. -/
def GoMap.set {β : Type} (m : GoMap β) (k : String) (v : β) : GoMap β :=
  (k, v) :: m.filter (fun p => !(p.1 == k))

structure RabbitSeasoning where
  ConsumerConfigs : GoMap ConsumerConfig
  ServiceConfig : ServiceConfig
deriving DecidableEq, Repr

/-! ## Collaborators of the service -/

/-- Calls the service makes on its `publisher.Publisher`. -/
inductive PublisherCall where
  | Publish (l : Letter)
  | PublishWithRetry (l : Letter)
  | StartAutoPublish (allowRetry : Bool)
  | StopAutoPublish
deriving DecidableEq, Repr

/-- The publisher as the service sees it: the calls received and its notification stream. -/
structure Publisher where
  calls : List PublisherCall
  notifications : Chan Notification
deriving DecidableEq, Repr

/-- The channel pool as the service sees it: its error stream and the `Shutdown` calls received. -/
structure ChannelPool where
  errors : Chan GoError
  shutdownCalls : Nat
deriving DecidableEq, Repr

structure Topologer where
  ready : Bool
deriving DecidableEq, Repr

/-- A consumer as the service sees it: its name, its error stream, the `StopConsuming` calls
received and what `StopConsuming` answers. -/
structure Consumer where
  ConsumerName : String
  errors : Chan GoError
  stopCalls : List (Bool × Bool)
  stopResult : GoError
deriving DecidableEq, Repr

/-- Constructors and system calls of other packages, as parameters. -/
structure Env where
  NewChannelPool : RabbitSeasoning → Except String ChannelPool
  NewPublisher : RabbitSeasoning → ChannelPool → Except String Publisher
  NewTopologer : ChannelPool → Except String Topologer
  NewConsumerFromConfig : ConsumerConfig → ChannelPool → Except String Consumer
  Hostname : Except String String

/-! ## `RabbitService` -/

/-- Goroutines the service can start. -/
inductive Task where
  | monitorStopService
  | collectPublisherErrors
  | collectChannelPoolErrors
  | collectConsumerErrors
deriving DecidableEq, Repr

structure RabbitService where
  Config : RabbitSeasoning
  ChannelPool : ChannelPool
  Topologer : Topologer
  Publisher : Publisher
  centralErr : Chan GoError
  consumers : GoMap Consumer
  stopServiceSignal : Chan Bool
  stop : Bool
  retryCount : Nat
  letterCount : Nat
  monitorSleepInterval : Nat
  tasks : List Task
deriving DecidableEq, Repr

/-- Message of the error Publish and PublishWithRetry return on rejected arguments. -/
def publishArgsError : String :=
  "can\x27t have a nil body or an empty exchangename with empty routing key"

/-- The Go call `atomic.AddUint64(&x, 1)`. -/
def addUint64 (x d : Nat) : Nat := (x + d) % 2 ^ 64

/-- The method `RabbitService.CreateConsumers`: ranges over the map, stops at the first failure. -/
def CreateConsumers (env : Env) (rs : RabbitService) :
    GoMap ConsumerConfig → RabbitService × GoError
  | [] => (rs, none)
  | (consumerName, consumerConfig) :: rest =>
    match env.NewConsumerFromConfig consumerConfig rs.ChannelPool with
    | .error err => (rs, some err)
    | .ok consumer =>
      let consumer := match env.Hostname with
        | .ok hostName => { consumer with ConsumerName := hostName ++ "-" ++ consumer.ConsumerName }
        | .error _ => consumer
      CreateConsumers env { rs with consumers := rs.consumers.set consumerName consumer } rest

/-- The constructor `NewRabbitService`. -/
def NewRabbitService (env : Env) (config : RabbitSeasoning) : Except String RabbitService :=
  match env.NewChannelPool config with
  | .error err => .error err
  | .ok channelPool =>
    match env.NewPublisher config channelPool with
    | .error err => .error err
    | .ok publisher =>
      match env.NewTopologer channelPool with
      | .error err => .error err
      | .ok topologer =>
        let rs : RabbitService :=
          { ChannelPool := channelPool
            Config := config
            Publisher := publisher
            Topologer := topologer
            centralErr := Chan.make config.ServiceConfig.ErrorBuffer
            stopServiceSignal := Chan.make 1
            consumers := []
            stop := false
            retryCount := 10
            letterCount := 0
            monitorSleepInterval := 3
            tasks := [] }
        match CreateConsumers env rs config.ConsumerConfigs with
        | (_, some err) => .error err
        | (rs, none) => .ok rs

/-- The method `RabbitService.CreateConsumerFromConfig`. -/
def CreateConsumerFromConfig (env : Env) (rs : RabbitService) (consumerName : String) :
    RabbitService × GoError :=
  match rs.Config.ConsumerConfigs.get consumerName with
  | some consumerConfig =>
    match env.NewConsumerFromConfig consumerConfig rs.ChannelPool with
    | .error err => (rs, some err)
    | .ok consumer => ({ rs with consumers := rs.consumers.set consumerName consumer }, none)
  | none => (rs, none)

/-- The method `RabbitService.PublishWithRetry`. -/
def PublishWithRetry (rs : RabbitService) (body : Bytes) (exchangeName routingKey : String) :
    RabbitService × GoError :=
  if body = none ∨ (exchangeName = "" ∧ routingKey = "") then
    (rs, some publishArgsError)
  else
    let currentCount := rs.letterCount
    let rs := { rs with letterCount := addUint64 rs.letterCount 1 }
    let letter : Letter :=
      { LetterID := currentCount
        RetryCount := rs.retryCount
        Body := body
        Envelope :=
          { Exchange := exchangeName
            RoutingKey := routingKey
            ContentType := "application/json"
            Mandatory := false
            Immediate := false } }
    ({ rs with Publisher :=
        { rs.Publisher with calls := rs.Publisher.calls ++ [PublisherCall.PublishWithRetry letter] } },
      none)

/-- The method `RabbitService.Publish`. -/
def Publish (rs : RabbitService) (body : Bytes) (exchangeName routingKey : String) :
    RabbitService × GoError :=
  if body = none ∨ (exchangeName = "" ∧ routingKey = "") then
    (rs, some publishArgsError)
  else
    let currentCount := rs.letterCount
    let rs := { rs with letterCount := addUint64 rs.letterCount 1 }
    let letter : Letter :=
      { LetterID := currentCount
        RetryCount := rs.retryCount
        Body := body
        Envelope :=
          { Exchange := exchangeName
            RoutingKey := routingKey
            ContentType := "application/json"
            Mandatory := false
            Immediate := false } }
    ({ rs with Publisher :=
        { rs.Publisher with calls := rs.Publisher.calls ++ [PublisherCall.Publish letter] } },
      none)

/-- The method `RabbitService.GetConsumer`. -/
def GetConsumer (rs : RabbitService) (consumerName : String) : Option Consumer × GoError :=
  match rs.consumers.get consumerName with
  | some consumer => (some consumer, none)
  | none => (none, some "consumer was not found")

/-! ### Background goroutines

Each `go func() { for { ... } }()` is a `Task` added to `tasks`; one pass through the body of its
loop is an iteration function returning an `Iter`. -/

/-- Result of one pass through a monitor loop: the loop was left (`exit`), the pass finished and
the loop goes round again (`next`), or the goroutine parked on a send (`blocked`). -/
inductive Iter (σ : Type) where
  | exit (s : σ)
  | next (s : σ)
  | blocked (s : σ)
deriving DecidableEq, Repr

/-- State carried by an iteration result. -/
def Iter.state {σ : Type} : Iter σ → σ
  | .exit s => s
  | .next s => s
  | .blocked s => s

/-- Whether the pass left the loop. -/
def Iter.isExit {σ : Type} : Iter σ → Bool
  | .exit _ => true
  | _ => false

/-- Whether the pass parked on a send. -/
def Iter.isBlocked {σ : Type} : Iter σ → Bool
  | .blocked _ => true
  | _ => false

/-- Starting a goroutine. -/
def spawn (rs : RabbitService) (t : Task) : RabbitService :=
  { rs with tasks := rs.tasks ++ [t] }

/-- The method `monitorStopService`: starts the goroutine that turns the stop signal into the
`stop` flag. -/
def monitorStopService (rs : RabbitService) : RabbitService :=
  spawn rs Task.monitorStopService

/-- One pass of the loop of `monitorStopService`. -/
def monitorStopServiceIter (rs : RabbitService) : Iter RabbitService :=
  match rs.stopServiceSignal.tryRecv false with
  | some (_, c) => .exit { rs with stopServiceSignal := c, stop := true }
  | none => .next rs

/-- The method `collectPublisherErrors`. -/
def collectPublisherErrors (rs : RabbitService) : RabbitService :=
  spawn rs Task.collectPublisherErrors

/-- One pass of the loop of `collectPublisherErrors`: the notification taken is dropped. -/
def collectPublisherErrorsIter (rs : RabbitService) : Iter RabbitService :=
  if rs.stop then .exit rs
  else
    match rs.Publisher.notifications.tryRecv { LetterID := 0, Success := false, Error := none } with
    | some (_, c) => .next { rs with Publisher := { rs.Publisher with notifications := c } }
    | none => .next rs

/-- The method `collectChannelPoolErrors`. -/
def collectChannelPoolErrors (rs : RabbitService) : RabbitService :=
  spawn rs Task.collectChannelPoolErrors

/-- One pass of the loop of `collectChannelPoolErrors`: an error taken from the pool is sent on
`centralErr` with a plain `centralErr <- err`. -/
def collectChannelPoolErrorsIter (rs : RabbitService) : Iter RabbitService :=
  if rs.stop then .exit rs
  else
    match rs.ChannelPool.errors.tryRecv none with
    | some (err, c) =>
      let rs := { rs with ChannelPool := { rs.ChannelPool with errors := c } }
      match rs.centralErr.send err with
      | some central => .next { rs with centralErr := central }
      | none => .blocked rs
    | none => .next rs

/-- Result of `IndividualConsumerLoop` for one consumer. -/
inductive Drain where
  | stopped (errs central : Chan GoError)
  | drained (errs central : Chan GoError)
  | blocked (errs central : Chan GoError)
deriving DecidableEq, Repr

/-- The loop `IndividualConsumerLoop` of `collectConsumerErrors` for one consumer, whose error
stream is `errs`: checks `stop`, takes one error without waiting and sends it on `centralErr`,
until nothing is pending. -/
def drainConsumerErrors (stop : Bool) (errs central : Chan GoError) : Drain :=
  if stop then .stopped errs central
  else
    match h : errs.tryRecv none with
    | none => .drained errs central
    | some (err, errs') =>
      match hs : central.send err with
      | none => .blocked errs' central
      | some central' => drainConsumerErrors stop errs' central'
termination_by errs.buf.length + (central.cap - central.buf.length)
decreasing_by
  have h1 : errs'.buf.length ≤ errs.buf.length := by
    unfold Chan.tryRecv at h
    split at h
    · cases h
      simp_all
    · split at h
      · cases h
        exact le_refl _
      · cases h
  have h2 : central.buf.length < central.cap ∧
      central'.buf.length = central.buf.length + 1 ∧ central'.cap = central.cap := by
    unfold Chan.send at hs
    split at hs
    · cases hs
      simp_all
    · cases hs
  omega

/-- The `for _, consumer := range rs.consumers` of `collectConsumerErrors`. -/
def rangeConsumerErrors (stop : Bool) :
    GoMap Consumer → Chan GoError → Iter (GoMap Consumer × Chan GoError)
  | [], central => .next ([], central)
  | (name, consumer) :: rest, central =>
    match drainConsumerErrors stop consumer.errors central with
    | .stopped errs central => .exit ((name, { consumer with errors := errs }) :: rest, central)
    | .blocked errs central => .blocked ((name, { consumer with errors := errs }) :: rest, central)
    | .drained errs central =>
      match rangeConsumerErrors stop rest central with
      | .exit (rest, central) => .exit ((name, { consumer with errors := errs }) :: rest, central)
      | .blocked (rest, central) =>
        .blocked ((name, { consumer with errors := errs }) :: rest, central)
      | .next (rest, central) => .next ((name, { consumer with errors := errs }) :: rest, central)

/-- The method `collectConsumerErrors`. -/
def collectConsumerErrors (rs : RabbitService) : RabbitService :=
  spawn rs Task.collectConsumerErrors

/-- One pass of `MonitorLoop` of `collectConsumerErrors`. -/
def collectConsumerErrorsIter (rs : RabbitService) : Iter RabbitService :=
  match rangeConsumerErrors rs.stop rs.consumers rs.centralErr with
  | .exit (cs, central) => .exit { rs with consumers := cs, centralErr := central }
  | .blocked (cs, central) => .blocked { rs with consumers := cs, centralErr := central }
  | .next (cs, central) => .next { rs with consumers := cs, centralErr := central }

/-- The method `RabbitService.StartService`. -/
def StartService (rs : RabbitService) : RabbitService :=
  let rs := collectPublisherErrors rs
  let rs := collectChannelPoolErrors rs
  let rs := collectConsumerErrors rs
  { rs with Publisher :=
      { rs.Publisher with calls := rs.Publisher.calls ++ [PublisherCall.StartAutoPublish false] } }

/-- The method `RabbitService.StopService`. -/
def StopService (rs : RabbitService) : Outcome RabbitService :=
  let rs := { rs with Publisher :=
    { rs.Publisher with calls := rs.Publisher.calls ++ [PublisherCall.StopAutoPublish] } }
  match rs.stopServiceSignal.send true with
  | some c => .returned { rs with stopServiceSignal := c }
  | none => .blocked rs

/-- The loop of `Shutdown` over the consumers: `StopConsuming(true, true)` on each, a failure is
sent on `centralErr` with a plain `centralErr <- err`. -/
def stopConsumersLoop :
    GoMap Consumer → Chan GoError → Outcome (GoMap Consumer × Chan GoError)
  | [], central => .returned ([], central)
  | (name, consumer) :: rest, central =>
    let consumer := { consumer with stopCalls := consumer.stopCalls ++ [(true, true)] }
    match consumer.stopResult with
    | some err =>
      match central.send (some err) with
      | none => .blocked ((name, consumer) :: rest, central)
      | some central =>
        (stopConsumersLoop rest central).andThen
          (fun p => ((name, consumer) :: p.1, p.2))
          (fun p => .returned ((name, consumer) :: p.1, p.2))
    | none =>
      (stopConsumersLoop rest central).andThen
        (fun p => ((name, consumer) :: p.1, p.2))
        (fun p => .returned ((name, consumer) :: p.1, p.2))

/-- The method `RabbitService.Shutdown`. -/
def Shutdown (rs : RabbitService) (stopConsumers : Bool) : Outcome RabbitService :=
  (StopService rs).andThen id fun rs =>
    let poolShutdown (rs : RabbitService) : RabbitService :=
      { rs with ChannelPool :=
          { rs.ChannelPool with shutdownCalls := rs.ChannelPool.shutdownCalls + 1 } }
    if stopConsumers then
      (stopConsumersLoop rs.consumers rs.centralErr).andThen
        (fun p => { rs with consumers := p.1, centralErr := p.2 })
        (fun p => .returned (poolShutdown { rs with consumers := p.1, centralErr := p.2 }))
    else
      .returned (poolShutdown rs)

/-- One pass of the loop of the goroutine `t`. -/
def taskIter : Task → RabbitService → Iter RabbitService
  | .monitorStopService => monitorStopServiceIter
  | .collectPublisherErrors => collectPublisherErrorsIter
  | .collectChannelPoolErrors => collectChannelPoolErrorsIter
  | .collectConsumerErrors => collectConsumerErrorsIter

/-- State after the running goroutine `t` made one pass; a goroutine that left its loop is no
longer running. -/
def stepTask (t : Task) (rs : RabbitService) : RabbitService :=
  match taskIter t rs with
  | .exit s => { s with tasks := s.tasks.erase t }
  | .next s => s
  | .blocked s => s

/-- One step of the system around the service: a running goroutine makes a pass, or the
environment (broker, pools, readers of the streams) changes anything but the `stop` flag, the
stop-signal stream and the set of goroutines, which only the service touches. -/
inductive Step : RabbitService → RabbitService → Prop where
  | task (rs : RabbitService) (t : Task) (h : t ∈ rs.tasks) : Step rs (stepTask t rs)
  | env (rs rs' : RabbitService) (hstop : rs'.stop = rs.stop)
      (hsig : rs'.stopServiceSignal = rs.stopServiceSignal) (htasks : rs'.tasks = rs.tasks) :
      Step rs rs'

/-- Reflexive-transitive closure of `Step`. -/
inductive Reachable : RabbitService → RabbitService → Prop where
  | refl (rs : RabbitService) : Reachable rs rs
  | step (rs rs' rs'' : RabbitService) (h : Reachable rs rs') (h' : Step rs' rs'') :
      Reachable rs rs''

/-- Either entry point of the service for publishing, selected by `withRetry`. -/
def publishVia (withRetry : Bool) (rs : RabbitService) (body : Bytes)
    (exchangeName routingKey : String) : RabbitService × GoError :=
  if withRetry then PublishWithRetry rs body exchangeName routingKey
  else Publish rs body exchangeName routingKey

/-- Letters the service has handed to its publisher, in call order. -/
def handedLetters (rs : RabbitService) : List Letter :=
  rs.Publisher.calls.filterMap fun
    | .Publish l => some l
    | .PublishWithRetry l => some l
    | _ => none

/-! ## `ChannelHost` (`pools/channelhost.go`) -/

/-- The type `amqp.Error`. -/
structure AmqpError where
  Code : Nat
  Reason : String
  Server : Bool
  Recover : Bool
deriving DecidableEq, Repr

/-- The type `amqp.Return`, routing part and body. -/
structure AmqpReturn where
  ReplyCode : Nat
  ReplyText : String
  Exchange : String
  RoutingKey : String
  Body : Bytes
deriving DecidableEq, Repr

/-- Modelled from the spec: `models.ErrorMessage` is declared outside the sources at hand; it is
the wrapped broker-side close reason. -/
structure ErrorMessage where
  Code : Nat
  Reason : String
  Server : Bool
  Recover : Bool
deriving DecidableEq, Repr

/-- Modelled from the spec: `models.NewErrorMessage`, declared outside the sources at hand, wraps
a broker-side close reason. -/
def NewErrorMessage (e : AmqpError) : ErrorMessage :=
  { Code := e.Code, Reason := e.Reason, Server := e.Server, Recover := e.Recover }

/-- Modelled from the spec: `models.ReturnMessage` is declared outside the sources at hand; it is
the wrapped unroutable return. -/
structure ReturnMessage where
  ReplyCode : Nat
  ReplyText : String
  Exchange : String
  RoutingKey : String
  Body : Bytes
deriving DecidableEq, Repr

/-- Modelled from the spec: `models.NewReturnMessage`, declared outside the sources at hand, wraps
a broker return. -/
def NewReturnMessage (r : AmqpReturn) : ReturnMessage :=
  { ReplyCode := r.ReplyCode, ReplyText := r.ReplyText, Exchange := r.Exchange,
    RoutingKey := r.RoutingKey, Body := r.Body }

/-- Handle of an open `amqp.Channel`. -/
structure AmqpChannel where
  id : Nat
deriving DecidableEq, Repr

/-- An `amqp.Connection` as `NewChannelHost` sees it: what `IsClosed()` answers and what
`Channel()` would answer. -/
structure AmqpConnection where
  closed : Bool
  channel : Except String AmqpChannel

/-- Calls made on the amqp connection and on the channel opened from it. -/
inductive AmqpCall where
  | IsClosed
  | Channel
  | NotifyClose (channel : AmqpChannel)
  | NotifyReturn (channel : AmqpChannel)
  | Confirm (channel : AmqpChannel) (noWait : Bool)
deriving DecidableEq, Repr

/-- The struct `ChannelHost`.  `closeErrors` carries `*amqp.Error`, which may be nil. -/
structure ChannelHost where
  Channel : AmqpChannel
  ChannelID : Nat
  ConnectionID : Nat
  ackable : Bool
  ErrorMessages : Chan ErrorMessage
  ReturnMessages : Chan ReturnMessage
  closeErrors : Chan (Option AmqpError)
  returnMessages : Chan AmqpReturn
deriving DecidableEq, Repr

/-- Message of the error `NewChannelHost` returns on a closed connection. -/
def connectionClosedError : String :=
  "can\x27t open a channel - connection is already closed"

/-- The constructor `NewChannelHost`: host, error, and the amqp calls made, in order. -/
def NewChannelHost (amqpConn : AmqpConnection) (channelID connectionID : Nat) (ackable : Bool) :
    Option ChannelHost × GoError × List AmqpCall :=
  if amqpConn.closed then
    (none, some connectionClosedError, [AmqpCall.IsClosed])
  else
    match amqpConn.channel with
    | .error err => (none, some err, [AmqpCall.IsClosed, AmqpCall.Channel])
    | .ok amqpChan =>
      let channelHost : ChannelHost :=
        { Channel := amqpChan
          ChannelID := channelID
          ConnectionID := connectionID
          ackable := ackable
          ErrorMessages := Chan.make 1
          ReturnMessages := Chan.make 1
          closeErrors := Chan.make 1
          returnMessages := Chan.make 1 }
      (some channelHost, none,
        [AmqpCall.IsClosed, AmqpCall.Channel, AmqpCall.NotifyClose channelHost.Channel,
          AmqpCall.NotifyReturn channelHost.Channel])

/-- The method `ChannelHost.CloseErrors`: the host after the call, whose `ErrorMessages` is the
stream returned; `blocked` when the goroutine parks on `ch.ErrorMessages <- ...`. -/
def ChannelHost.CloseErrors (ch : ChannelHost) : Outcome ChannelHost :=
  match ch.closeErrors.tryRecv none with
  | some (amqpError, closeErrors) =>
    let ch := { ch with closeErrors := closeErrors }
    match amqpError with
    | some e =>
      match ch.ErrorMessages.send (NewErrorMessage e) with
      | some errorMessages => .returned { ch with ErrorMessages := errorMessages }
      | none => .blocked ch
    | none => .returned ch
  | none => .returned ch

/-- The method `ChannelHost.Returns`: the host after the call, whose `ReturnMessages` is the
stream returned; `blocked` when the goroutine parks on `ch.ReturnMessages <- ...`. -/
def ChannelHost.Returns (ch : ChannelHost) : Outcome ChannelHost :=
  match ch.returnMessages.tryRecv
      { ReplyCode := 0, ReplyText := "", Exchange := "", RoutingKey := "", Body := none } with
  | some (amqpReturn, returnMessages) =>
    let ch := { ch with returnMessages := returnMessages }
    match ch.ReturnMessages.send (NewReturnMessage amqpReturn) with
    | some out => .returned { ch with ReturnMessages := out }
    | none => .blocked ch
  | none => .returned ch

/-- The method `ChannelHost.IsAckable`. -/
def ChannelHost.IsAckable (ch : ChannelHost) : Bool :=
  ch.ackable

/-- Whether the amqp call is `Channel.Confirm`, which sends `confirm.select`. -/
def AmqpCall.isConfirm : AmqpCall → Bool
  | .Confirm _ _ => true
  | _ => false

/-! ## Sequences of publish calls -/

/-- One call of `Publish` or `PublishWithRetry`. -/
structure PublishCall where
  withRetry : Bool
  body : Bytes
  exchangeName : String
  routingKey : String
deriving DecidableEq, Repr

/-- The call `c` made on the service `rs`. -/
def PublishCall.run (c : PublishCall) (rs : RabbitService) : RabbitService × GoError :=
  publishVia c.withRetry rs c.body c.exchangeName c.routingKey

/-- The service after the calls were made one after the other. -/
def runCalls : List PublishCall → RabbitService → RabbitService
  | [], rs => rs
  | c :: cs, rs => runCalls cs (c.run rs).1

/-- How many of the calls, made one after the other, returned nil. -/
def acceptedCalls : List PublishCall → RabbitService → Nat
  | [], _ => 0
  | c :: cs, rs => (if (c.run rs).2 = none then 1 else 0) + acceptedCalls cs (c.run rs).1

/-- LetterIDs of the letters handed to the publisher, in call order. -/
def handedIDs (rs : RabbitService) : List Nat :=
  (handedLetters rs).map Letter.LetterID

/-! ## Sessions of `ChannelHost.Returns` -/

/-- What happens to a host between and at calls of `Returns`: the amqp library puts a broker
return on the raw stream, or the caller calls `Returns` and reads the stream it gets back. -/
inductive ReturnEvent where
  | arrive (r : AmqpReturn)
  | call
deriving DecidableEq, Repr

/-- A host together with the returns its raw stream has accepted so far, what the caller has read
so far, and whether a call of `Returns` has parked. -/
structure ReturnSession where
  host : ChannelHost
  arrived : List AmqpReturn
  delivered : List ReturnMessage
  blocked : Bool
deriving DecidableEq, Repr

/-- A session that starts at the host `h`. -/
def ReturnSession.start (h : ChannelHost) : ReturnSession :=
  { host := h, arrived := [], delivered := [], blocked := false }

/-- One event of a session.  A return arrives only when the raw stream has room (the library
waits otherwise); at a call that returns, the caller reads all the stream holds. -/
def ReturnSession.step (s : ReturnSession) : ReturnEvent → ReturnSession
  | .arrive r =>
    match s.host.returnMessages.send r with
    | some c =>
      { s with host := { s.host with returnMessages := c }, arrived := s.arrived ++ [r] }
    | none => s
  | .call =>
    match s.host.Returns with
    | .returned h =>
      { s with
        host := { h with ReturnMessages := { h.ReturnMessages with buf := [] } }
        delivered := s.delivered ++ h.ReturnMessages.buf }
    | .blocked h => { s with host := h, blocked := true }

/-- The session after the events, in order. -/
def ReturnSession.run (s : ReturnSession) (events : List ReturnEvent) : ReturnSession :=
  events.foldl ReturnSession.step s

/-! ## Connection and channel pools (`pools`), after the specification

The sources of the two pools are not at hand, only their tests; the definitions of this section
follow the contracts of the specification. -/

namespace Pools

/-- Modelled from the spec: the `Pools` section of the configuration record, which is declared
outside the sources at hand: the sizes of the connection pool and of the two channel sub-pools,
and the capacity of the error stream of each pool. -/
structure PoolConfig where
  ConnectionCount : Nat
  ChannelCount : Nat
  AckChannelCount : Nat
  ErrorBuffer : Nat
deriving DecidableEq, Repr

/-- Modelled from the spec: the send on a pool error stream, missing from the sources at hand:
the stream is bounded and on overflow the oldest entry is dropped. -/
def sendDropOldest {α : Type} (c : Chan α) (v : α) : Chan α :=
  if c.cap = 0 then c
  else if c.buf.length < c.cap then { c with buf := c.buf ++ [v] }
  else { c with buf := c.buf.tail ++ [v] }

/-- Modelled from the spec: `ConnectionHost`, missing from the sources at hand, owns one AMQP
connection, known by its `connectionID`; between creation and pool shutdown it may be dead
(closed) while still present in its slot. -/
structure ConnectionHost where
  ConnectionID : Nat
  closed : Bool
deriving DecidableEq, Repr

/-- Modelled from the spec: `ConnectionPool`, missing from the sources at hand, is a fixed-size
circular structure of slots indexed by monotonic IDs, holding its hosts and a shutdown flag; a
slot whose dial failed is left empty. -/
structure ConnectionPool where
  Config : PoolConfig
  Initialized : Bool
  slots : List (Option ConnectionHost)
  nextConnectionID : Nat
  cursor : Nat
  stopped : Bool
  errors : Chan GoError
deriving DecidableEq, Repr

/-- Modelled from the spec: `NewConnectionPool`, missing from the sources at hand, with
initialization skipped: it allocates the state. -/
def NewConnectionPool (cfg : PoolConfig) : ConnectionPool :=
  { Config := cfg
    Initialized := false
    slots := []
    nextConnectionID := 0
    cursor := 0
    stopped := false
    errors := Chan.make cfg.ErrorBuffer }

/-- Modelled from the spec: one open attempt of the pool, missing from the sources at hand.
`dial id` tells whether the connection could be opened within the retry window; when it could
not, no host is made and an error is emitted on the error stream. -/
def ConnectionPool.openConnection (dial : Nat → Bool) (cp : ConnectionPool) :
    ConnectionPool × Option ConnectionHost :=
  if dial cp.nextConnectionID then
    ({ cp with nextConnectionID := cp.nextConnectionID + 1 },
      some { ConnectionID := cp.nextConnectionID, closed := false })
  else
    ({ cp with
        nextConnectionID := cp.nextConnectionID + 1
        errors := sendDropOldest cp.errors (some "connection could not be opened") },
      none)

/-- Modelled from the spec: the loop of `Initialize`, missing from the sources at hand, opening
`n` more connections in order, one slot each. -/
def ConnectionPool.fill (dial : Nat → Bool) : Nat → ConnectionPool → ConnectionPool
  | 0, cp => cp
  | n + 1, cp =>
    let r := cp.openConnection dial
    ConnectionPool.fill dial n { r.1 with slots := r.1.slots ++ [r.2] }

/-- Modelled from the spec: `ConnectionPool.Initialize`, missing from the sources at hand, is
idempotent, opens connections up to the configured count and sets `Initialized` on completion. -/
def ConnectionPool.Initialize (dial : Nat → Bool) (cp : ConnectionPool) : ConnectionPool :=
  if cp.Initialized then cp
  else
    { ConnectionPool.fill dial (cp.Config.ConnectionCount - cp.slots.length) cp with
      Initialized := true }

/-- Modelled from the spec: `ConnectionPool.ConnectionCount`, missing from the sources at hand,
is the current live count, an `int64`. -/
def ConnectionPool.ConnectionCount (cp : ConnectionPool) : Int :=
  ((cp.slots.filter fun slot =>
    match slot with
    | some host => !host.closed
    | none => false).length : Nat)

/-- Modelled from the spec: `ConnectionPool.Shutdown`, missing from the sources at hand, closes
every connection and marks the pool stopped. -/
def ConnectionPool.Shutdown (cp : ConnectionPool) : ConnectionPool :=
  { cp with
    slots := cp.slots.map (Option.map fun host => { host with closed := true })
    stopped := true }

/-- Modelled from the spec: the error of `GetConnection` on a pool that was shut down; the spec
fixes that there is an error, not its text. -/
def connectionPoolShutdownError : String :=
  "can\x27t get connection - connection pool has been shutdown"

/-- Modelled from the spec: `ConnectionPool.GetConnection`, missing from the sources at hand,
fails on a pool that is shut down; otherwise it selects the next slot round-robin and, when the
slot is empty or its host closed, replaces it in place by a host with a new `connectionID`
before returning.  A pool without slots has nothing to select. -/
def ConnectionPool.GetConnection (cp : ConnectionPool) :
    ConnectionPool × Option ConnectionHost × GoError :=
  if cp.stopped then (cp, none, some connectionPoolShutdownError)
  else if cp.slots.length = 0 then (cp, none, some "connection pool has no slot")
  else
    let i := cp.cursor % cp.slots.length
    let cp := { cp with cursor := cp.cursor + 1 }
    match cp.slots.getD i none with
    | some host =>
      if host.closed then
        let fresh : ConnectionHost := { ConnectionID := cp.nextConnectionID, closed := false }
        ({ cp with slots := cp.slots.set i (some fresh),
                   nextConnectionID := cp.nextConnectionID + 1 }, some fresh, none)
      else (cp, some host, none)
    | none =>
      let fresh : ConnectionHost := { ConnectionID := cp.nextConnectionID, closed := false }
      ({ cp with slots := cp.slots.set i (some fresh),
                 nextConnectionID := cp.nextConnectionID + 1 }, some fresh, none)

/-- Modelled from the spec: `ChannelPool`, missing from the sources at hand, holds two separate
sub-pools of fixed size, plain and confirm-mode channels, over its connection pool, and a
shutdown flag. -/
structure ChannelPool where
  Config : PoolConfig
  ConnectionPool : ConnectionPool
  Initialized : Bool
  channels : List (Option ChannelHost)
  ackChannels : List (Option ChannelHost)
  nextChannelID : Nat
  cursor : Nat
  ackCursor : Nat
  stopped : Bool
  errors : Chan GoError
deriving DecidableEq, Repr

/-- Modelled from the spec: `NewChannelPool`, missing from the sources at hand, with
initialization skipped: it allocates the state over the connection pool given. -/
def NewChannelPool (cfg : PoolConfig) (connectionPool : ConnectionPool) : ChannelPool :=
  { Config := cfg
    ConnectionPool := connectionPool
    Initialized := false
    channels := []
    ackChannels := []
    nextChannelID := 0
    cursor := 0
    ackCursor := 0
    stopped := false
    errors := Chan.make cfg.ErrorBuffer }

/-- Modelled from the spec: creation of one pool entry, missing from the sources at hand: a
freshly opened channel (`NewChannelHost`) bound to a connection obtained from the connection
pool; a failure is emitted on the error stream and leaves no host. -/
def ChannelPool.createChannel (cp : ChannelPool) (ackable : Bool) :
    ChannelPool × Option ChannelHost × GoError :=
  match cp.ConnectionPool.GetConnection with
  | (connectionPool, some connHost, _) =>
    let r := NewChannelHost { closed := connHost.closed, channel := .ok { id := cp.nextChannelID } }
      cp.nextChannelID connHost.ConnectionID ackable
    ({ cp with ConnectionPool := connectionPool, nextChannelID := cp.nextChannelID + 1 },
      r.1, r.2.1)
  | (connectionPool, none, err) =>
    ({ cp with ConnectionPool := connectionPool, errors := sendDropOldest cp.errors err },
      none, err)

/-- Modelled from the spec: the loop of `ChannelPool.Initialize`, missing from the sources at
hand, creating `n` entries of one sub-pool. -/
def ChannelPool.fill (ackable : Bool) : Nat → ChannelPool → ChannelPool
  | 0, cp => cp
  | n + 1, cp =>
    let r := cp.createChannel ackable
    ChannelPool.fill ackable n
      (if ackable then { r.1 with ackChannels := r.1.ackChannels ++ [r.2.1] }
       else { r.1 with channels := r.1.channels ++ [r.2.1] })

/-- Modelled from the spec: `ChannelPool.Initialize`, missing from the sources at hand, is
idempotent; it initializes the connection pool and opens the channels of both sub-pools. -/
def ChannelPool.Initialize (dial : Nat → Bool) (cp : ChannelPool) : ChannelPool :=
  if cp.Initialized then cp
  else
    let cp := { cp with ConnectionPool := cp.ConnectionPool.Initialize dial }
    let cp := ChannelPool.fill false (cp.Config.ChannelCount - cp.channels.length) cp
    let cp := ChannelPool.fill true (cp.Config.AckChannelCount - cp.ackChannels.length) cp
    { cp with Initialized := true }

/-- Modelled from the spec: `ChannelPool.ChannelCount`, missing from the sources at hand, the
number of channels the pool holds, over both sub-pools. -/
def ChannelPool.ChannelCount (cp : ChannelPool) : Int :=
  (((cp.channels.filter Option.isSome).length + (cp.ackChannels.filter Option.isSome).length :
    Nat) : Int)

/-- Modelled from the spec: `ChannelPool.Shutdown`, missing from the sources at hand, closes
every channel, releasing them, then marks the pool stopped. -/
def ChannelPool.Shutdown (cp : ChannelPool) : ChannelPool :=
  { cp with
    channels := cp.channels.map fun _ => none
    ackChannels := cp.ackChannels.map fun _ => none
    stopped := true }

/-- Modelled from the spec: the error of `GetChannel` on a pool that was shut down; the spec
fixes that there is an error, not its text. -/
def channelPoolShutdownError : String :=
  "can\x27t get channel - channel pool has been shutdown"

/-- Modelled from the spec: the health check of a host at lease time, missing from the sources
at hand: a non-nil close reason on its close-notification stream marks the host dead. -/
def hostIsDead (ch : ChannelHost) : Bool :=
  ch.closeErrors.buf.any Option.isSome

/-- Modelled from the spec: `ChannelPool.GetChannel`, missing from the sources at hand, fails on
a pool that is shut down and on a pool whose connection pool was shut down; otherwise it selects
the next slot of the plain sub-pool round-robin and replaces an empty slot or a dead host by a
new channel before returning it. -/
def ChannelPool.GetChannel (cp : ChannelPool) : ChannelPool × Option ChannelHost × GoError :=
  if cp.stopped then (cp, none, some channelPoolShutdownError)
  else if cp.ConnectionPool.stopped then (cp, none, some connectionPoolShutdownError)
  else if cp.channels.length = 0 then (cp, none, some "channel pool has no slot")
  else
    let i := cp.cursor % cp.channels.length
    let cp := { cp with cursor := cp.cursor + 1 }
    match cp.channels.getD i none with
    | some host =>
      if hostIsDead host then
        let r := cp.createChannel false
        ({ r.1 with channels := r.1.channels.set i r.2.1 }, r.2.1, r.2.2)
      else (cp, some host, none)
    | none =>
      let r := cp.createChannel false
      ({ r.1 with channels := r.1.channels.set i r.2.1 }, r.2.1, r.2.2)

end Pools

/-! ## `Consumer.GetBatch` (`consumer`), after the specification -/

/-- Modelled from the spec: `Message`, declared outside the sources at hand, the consume unit:
body, delivery tag, whether it can be acknowledged, and the channel that delivered it. -/
structure Message where
  Body : Bytes
  DeliveryTag : Nat
  IsAckable : Bool
  ChannelID : Nat
deriving DecidableEq, Repr

/-- Modelled from the spec: the broker as `basic.get` sees it, missing from the sources at hand:
its queues by name, each with its ready messages, oldest first. -/
abbrev Broker := GoMap (List Bytes)

/-- Modelled from the spec: the AMQP method `basic.get`, one-shot: an error on a queue that does
not exist, no message on an empty queue, else the oldest ready message, taken off the queue. -/
def basicGet (broker : Broker) (queue : String) : Except String (Option Bytes × Broker) :=
  match broker.get queue with
  | none => .error "NOT_FOUND - no queue"
  | some [] => .ok (none, broker)
  | some (body :: rest) => .ok (some body, broker.set queue rest)

/-- Modelled from the spec: the loop of `Consumer.GetBatch`, missing from the sources at hand:
up to `n` more `basic.get`, stopping early when the queue is empty. -/
def getBatchLoop (channelID : Nat) (queue : String) (autoAck : Bool) :
    Nat → Nat → Broker → List Message → Broker × Except String (List Message)
  | 0, _, broker, acc => (broker, .ok acc)
  | n + 1, tag, broker, acc =>
    match basicGet broker queue with
    | .error err => (broker, .error err)
    | .ok (none, broker) => (broker, .ok acc)
    | .ok (some body, broker) =>
      getBatchLoop channelID queue autoAck n (tag + 1) broker
        (acc ++ [{ Body := body, DeliveryTag := tag, IsAckable := !autoAck,
                   ChannelID := channelID }])

/-- Modelled from the spec: the error of `GetBatch` on a count that is not positive; the spec
fixes that there is an error, not its text. -/
def batchSizeError : String :=
  "can\x27t get a batch of messages whose size is less than 1"

/-- Modelled from the spec: `Consumer.GetBatch(queue, count, autoAck)`, missing from the sources
at hand, fails if `count ≤ 0`; otherwise it leases a channel from the pool and returns up to
`count` messages, stopping early when the queue is empty. -/
def GetBatch (pool : Pools.ChannelPool) (broker : Broker) (queueName : String) (batchSize : Int)
    (autoAck : Bool) : Pools.ChannelPool × Broker × Option (List Message) × GoError :=
  if batchSize ≤ 0 then (pool, broker, none, some batchSizeError)
  else
    match pool.GetChannel with
    | (pool, some chanHost, _) =>
      match getBatchLoop chanHost.ChannelID queueName autoAck batchSize.toNat 1 broker [] with
      | (broker, .ok messages) => (pool, broker, some messages, none)
      | (broker, .error err) => (pool, broker, none, some err)
    | (pool, none, err) => (pool, broker, none, err)

/-! ## Sessions of `ChannelHost.CloseErrors` -/

/-- What happens to a host between and at calls of `CloseErrors`.  `shutdown reason`: the amqp
channel shuts down; by the contract of `amqp.Channel.NotifyClose` the library then sends the
reason on the registered stream when there is one (none on a graceful close) and closes the
stream, once in the life of the channel.  `call`: the caller calls `CloseErrors`.  `read`: a
reader takes the oldest entry off `ErrorMessages`. -/
inductive CloseEvent where
  | shutdown (reason : Option AmqpError)
  | call
  | read
deriving DecidableEq, Repr

/-- A host together with whether its amqp channel has shut down, what readers have taken off
`ErrorMessages` so far, and whether a call of `CloseErrors` has parked. -/
structure CloseSession where
  host : ChannelHost
  shut : Bool
  delivered : List ErrorMessage
  blocked : Bool
deriving DecidableEq, Repr

/-- A session that starts at the host `h`, its amqp channel open. -/
def CloseSession.start (h : ChannelHost) : CloseSession :=
  { host := h, shut := false, delivered := [], blocked := false }

/-- The registered stream after the amqp channel shut down with `reason`: the reason sent, if
any and if the stream has room, then the stream closed. -/
def closeNotify (c : Chan (Option AmqpError)) (reason : Option AmqpError) :
    Chan (Option AmqpError) :=
  match reason with
  | some e =>
    match c.send (some e) with
    | some c => { c with closed := true }
    | none => { c with closed := true }
  | none => { c with closed := true }

/-- One event of a session.  A second shutdown of the same channel does nothing. -/
def CloseSession.step (s : CloseSession) : CloseEvent → CloseSession
  | .shutdown reason =>
    if s.shut then s
    else
      { s with
        host := { s.host with closeErrors := closeNotify s.host.closeErrors reason }
        shut := true }
  | .call =>
    match s.host.CloseErrors with
    | .returned h => { s with host := h }
    | .blocked h => { s with host := h, blocked := true }
  | .read =>
    { s with
      host := { s.host with
        ErrorMessages := { s.host.ErrorMessages with buf := s.host.ErrorMessages.buf.tail } }
      delivered := s.delivered ++ s.host.ErrorMessages.buf.take 1 }

/-- The session after the events, in order. -/
def CloseSession.run (s : CloseSession) (events : List CloseEvent) : CloseSession :=
  events.foldl CloseSession.step s

/-! ## Sample inputs -/

/-- A two-consumer configuration with a central error stream of capacity 1. -/
def sampleConfig : RabbitSeasoning :=
  { ConsumerConfigs :=
      [("ackable", { QueueName := "q1", ConsumerName := "c1", AutoAck := false }),
       ("autoack", { QueueName := "q2", ConsumerName := "c2", AutoAck := true })]
    ServiceConfig := { ErrorBuffer := 1 } }

/-- Collaborators that all succeed; consumers answer `StopConsuming` with nil. -/
def sampleEnv : Env :=
  { NewChannelPool := fun _ => .ok { errors := Chan.make 1, shutdownCalls := 0 }
    NewPublisher := fun _ _ => .ok { calls := [], notifications := Chan.make 1 }
    NewTopologer := fun _ => .ok { ready := true }
    NewConsumerFromConfig := fun c _ =>
      .ok { ConsumerName := c.ConsumerName, errors := Chan.make 1, stopCalls := [],
            stopResult := none }
    Hostname := .ok "host" }

/-- The service `NewRabbitService` builds from the sample inputs. -/
def sampleService : RabbitService :=
  { Config := sampleConfig
    ChannelPool := { errors := Chan.make 1, shutdownCalls := 0 }
    Topologer := { ready := true }
    Publisher := { calls := [], notifications := Chan.make 1 }
    centralErr := Chan.make 1
    consumers :=
      [("autoack", { ConsumerName := "host-c2", errors := Chan.make 1, stopCalls := [],
                     stopResult := none }),
       ("ackable", { ConsumerName := "host-c1", errors := Chan.make 1, stopCalls := [],
                     stopResult := none })]
    stopServiceSignal := Chan.make 1
    stop := false
    retryCount := 10
    letterCount := 0
    monitorSleepInterval := 3
    tasks := [] }

/-- An accepted call: non-nil body of length 0, both names given. -/
def sampleCall : PublishCall :=
  { withRetry := false, body := some [], exchangeName := "orders", routingKey := "created" }

/-- The sample service with its central error stream full (one unread entry, capacity 1), one
error pending on the pool stream and on the first consumer, and consumers that fail to stop. -/
def fullService : RabbitService :=
  { sampleService with
    centralErr := { buf := [some "old"], cap := 1, closed := false }
    ChannelPool := { errors := { buf := [some "pool"], cap := 1, closed := false },
                     shutdownCalls := 0 }
    consumers :=
      [("autoack", { ConsumerName := "host-c2",
                     errors := { buf := [some "consumer"], cap := 1, closed := false },
                     stopCalls := [], stopResult := some "stop failed" })] }

/-- An open connection whose `Channel()` answers channel 7. -/
def openConnection : AmqpConnection :=
  { closed := false, channel := .ok { id := 7 } }

/-- A close reason sent by the broker. -/
def sampleAmqpError : AmqpError :=
  { Code := 504, Reason := "channel error", Server := true, Recover := false }

/-- A broker return for an unroutable letter. -/
def sampleReturn : AmqpReturn :=
  { ReplyCode := 312, ReplyText := "NO_ROUTE", Exchange := "orders", RoutingKey := "created",
    Body := some [1] }

/-- A second broker return. -/
def otherReturn : AmqpReturn :=
  { ReplyCode := 312, ReplyText := "NO_ROUTE", Exchange := "orders", RoutingKey := "deleted",
    Body := some [2] }

/-- A host as `NewChannelHost` builds it: all four streams empty, of capacity 1. -/
def freshHost : ChannelHost :=
  { Channel := { id := 7 }
    ChannelID := 1
    ConnectionID := 1
    ackable := false
    ErrorMessages := Chan.make 1
    ReturnMessages := Chan.make 1
    closeErrors := Chan.make 1
    returnMessages := Chan.make 1 }

/-- A host whose `ReturnMessages` still holds an unread entry while a second return is pending on
the raw stream. -/
def stalledHost : ChannelHost :=
  { freshHost with
    ReturnMessages := { buf := [NewReturnMessage sampleReturn], cap := 1, closed := false }
    returnMessages := { buf := [otherReturn], cap := 1, closed := false } }

/-- A host whose raw return stream was closed by the amqp library, with nothing pending. -/
def closedReturnsHost : ChannelHost :=
  { freshHost with returnMessages := { buf := [], cap := 1, closed := true } }

/-- Pool sizes of the sample: two connections, two plain channels, one confirm-mode channel. -/
def samplePoolConfig : Pools.PoolConfig :=
  { ConnectionCount := 2, ChannelCount := 2, AckChannelCount := 1, ErrorBuffer := 1 }

/-- A dialer for which every connection can be opened. -/
def dialOk : Nat → Bool := fun _ => true

/-- The sample connection pool, initialized. -/
def sampleConnectionPool : Pools.ConnectionPool :=
  (Pools.NewConnectionPool samplePoolConfig).Initialize dialOk

/-- The sample channel pool, initialized over its own connection pool. -/
def sampleChannelPool : Pools.ChannelPool :=
  (Pools.NewChannelPool samplePoolConfig (Pools.NewConnectionPool samplePoolConfig)).Initialize
    dialOk

/-- A broker with one queue holding three ready messages. -/
def sampleBroker : Broker :=
  [("ConsumerTestQueue", [some [1], some [2], some [3]])]

theorem sampleService_eq : NewRabbitService sampleEnv sampleConfig = .ok sampleService := by
  rfl

theorem createConsumers_fields (env : Env) (cfgs : GoMap ConsumerConfig) :
    ∀ rs : RabbitService,
      (CreateConsumers env rs cfgs).1.stop = rs.stop ∧
        (CreateConsumers env rs cfgs).1.tasks = rs.tasks ∧
        (CreateConsumers env rs cfgs).1.stopServiceSignal = rs.stopServiceSignal ∧
        (CreateConsumers env rs cfgs).1.letterCount = rs.letterCount ∧
        (CreateConsumers env rs cfgs).1.centralErr = rs.centralErr ∧
        (CreateConsumers env rs cfgs).1.retryCount = rs.retryCount := by
  induction cfgs with
  | nil => intro rs; exact ⟨rfl, rfl, rfl, rfl, rfl, rfl⟩
  | cons p rest ih =>
    intro rs
    obtain ⟨name, cfg⟩ := p
    simp only [CreateConsumers]
    cases env.NewConsumerFromConfig cfg rs.ChannelPool with
    | error e => exact ⟨rfl, rfl, rfl, rfl, rfl, rfl⟩
    | ok c => exact ih _

/-- What `NewRabbitService` guarantees of the service it returns. -/
theorem newRabbitService_fresh (env : Env) (config : RabbitSeasoning) (rs : RabbitService)
    (h : NewRabbitService env config = .ok rs) :
    rs.stop = false ∧ rs.tasks = [] ∧ rs.stopServiceSignal = Chan.make 1 ∧
      rs.letterCount = 0 ∧ rs.centralErr = Chan.make config.ServiceConfig.ErrorBuffer ∧
      rs.retryCount = 10 := by
  unfold NewRabbitService at h
  cases hp : env.NewChannelPool config with
  | error e => simp [hp] at h
  | ok channelPool =>
    cases hq : env.NewPublisher config channelPool with
    | error e => simp [hp, hq] at h
    | ok publisher =>
      cases ht : env.NewTopologer channelPool with
      | error e => simp [hp, hq, ht] at h
      | ok topologer =>
        simp only [hp, hq, ht] at h
        have hf := createConsumers_fields env config.ConsumerConfigs
          { ChannelPool := channelPool
            Config := config
            Publisher := publisher
            Topologer := topologer
            centralErr := Chan.make config.ServiceConfig.ErrorBuffer
            stopServiceSignal := Chan.make 1
            consumers := []
            stop := false
            retryCount := 10
            letterCount := 0
            monitorSleepInterval := 3
            tasks := [] }
        split at h
        · cases h
        · rename_i rs' heq
          cases h
          rw [heq] at hf
          exact hf

/-! ## Publish and PublishWithRetry: argument contract -/

/-- C1: `Publish` and `PublishWithRetry` return a non-nil error exactly when the body is nil or
both the exchange name and the routing key are empty; the error is then the contract error, and in
every other case the result is nil. -/
theorem publish_error_iff (withRetry : Bool) (rs : RabbitService) (body : Bytes)
    (exchangeName routingKey : String) :
    ((publishVia withRetry rs body exchangeName routingKey).2 ≠ none ↔
        (body = none ∨ (exchangeName = "" ∧ routingKey = ""))) ∧
      ((publishVia withRetry rs body exchangeName routingKey).2 = none ∨
        (publishVia withRetry rs body exchangeName routingKey).2 = some publishArgsError) := by
  by_cases h : body = none ∨ (exchangeName = "" ∧ routingKey = "")
  · cases withRetry <;> simp [publishVia, Publish, PublishWithRetry, h]
  · cases withRetry <;> simp [publishVia, Publish, PublishWithRetry, h]

theorem rejected_call_keeps_state (withRetry : Bool) (rs : RabbitService)
    (body : Bytes) (exchangeName routingKey : String)
    (h : (publishVia withRetry rs body exchangeName routingKey).2 ≠ none) :
    (publishVia withRetry rs body exchangeName routingKey).1 = rs := by
  by_cases hc : body = none ∨ (exchangeName = "" ∧ routingKey = "")
  · cases withRetry <;> simp [publishVia, Publish, PublishWithRetry, hc]
  · exfalso
    revert h
    cases withRetry <;> simp [publishVia, Publish, PublishWithRetry, hc]

/-- C2: when `Publish` or `PublishWithRetry` returns the contract error the service is unchanged:
`letterCount` keeps its value, the publisher has received no call and `centralErr` holds what it
held. -/
theorem publish_rejected_state_unchanged (withRetry : Bool) (rs : RabbitService) (body : Bytes)
    (exchangeName routingKey : String)
    (h : (publishVia withRetry rs body exchangeName routingKey).2 ≠ none) :
    (publishVia withRetry rs body exchangeName routingKey).1 = rs ∧
      (publishVia withRetry rs body exchangeName routingKey).1.letterCount = rs.letterCount ∧
      handedLetters (publishVia withRetry rs body exchangeName routingKey).1 = handedLetters rs ∧
      (publishVia withRetry rs body exchangeName routingKey).1.Publisher = rs.Publisher ∧
      (publishVia withRetry rs body exchangeName routingKey).1.centralErr = rs.centralErr := by
  by_cases hc : body = none ∨ (exchangeName = "" ∧ routingKey = "")
  · cases withRetry <;> simp [publishVia, Publish, PublishWithRetry, hc]
  · exfalso
    revert h
    cases withRetry <;> simp [publishVia, Publish, PublishWithRetry, hc]

theorem publish_rejected_state_unchanged_witness :
    (publishVia true sampleService none "orders" "created").2 ≠ none ∧
      (publishVia true sampleService none "orders" "created").1 = sampleService :=
  ⟨by decide, (publish_rejected_state_unchanged true sampleService none "orders" "created"
    (by decide)).1⟩

/-! ## LetterIDs -/

theorem run_rejected (c : PublishCall) (rs : RabbitService) (h : (c.run rs).2 ≠ none) :
    (c.run rs).1 = rs :=
  (rejected_call_keeps_state c.withRetry rs c.body c.exchangeName c.routingKey h)

theorem run_accepted (c : PublishCall) (rs : RabbitService) (h : (c.run rs).2 = none) :
    (c.run rs).1.letterCount = (rs.letterCount + 1) % 2 ^ 64 ∧
      handedIDs (c.run rs).1 = handedIDs rs ++ [rs.letterCount] := by
  obtain ⟨w, b, e, k⟩ := c
  by_cases hc : b = none ∨ (e = "" ∧ k = "")
  · exfalso
    revert h
    cases w <;> simp [PublishCall.run, publishVia, Publish, PublishWithRetry, hc]
  · cases w <;>
      simp [PublishCall.run, publishVia, Publish, PublishWithRetry, hc, handedIDs, handedLetters,
        addUint64, List.filterMap_append]

theorem runCalls_ids (calls : List PublishCall) :
    ∀ rs : RabbitService, rs.letterCount < 2 ^ 64 →
      handedIDs (runCalls calls rs) =
          handedIDs rs ++
            (List.range (acceptedCalls calls rs)).map (fun i => (rs.letterCount + i) % 2 ^ 64) ∧
        (runCalls calls rs).letterCount = (rs.letterCount + acceptedCalls calls rs) % 2 ^ 64 := by
  induction calls with
  | nil =>
    intro rs h
    simp only [runCalls, acceptedCalls, List.range_zero, List.map_nil, List.append_nil,
      Nat.add_zero, true_and]
    exact (Nat.mod_eq_of_lt h).symm
  | cons c cs ih =>
    intro rs h
    by_cases hc : (c.run rs).2 = none
    · obtain ⟨h1, h2⟩ := run_accepted c rs hc
      have hlt : (c.run rs).1.letterCount < 2 ^ 64 := by
        rw [h1]
        exact Nat.mod_lt _ (by decide)
      obtain ⟨i1, i2⟩ := ih (c.run rs).1 hlt
      simp only [runCalls, acceptedCalls, hc, if_true]
      rw [i1, i2, h1, h2]
      constructor
      · rw [Nat.add_comm 1 (acceptedCalls cs (c.run rs).1), List.range_succ_eq_map]
        simp only [List.map_cons, List.map_map, List.append_assoc, List.singleton_append,
          Nat.add_zero, Nat.mod_eq_of_lt h]
        congr 2
        apply List.map_congr_left
        intro a _
        simp only [Function.comp]
        rw [Nat.mod_add_mod]
        congr 1
        omega
      · rw [Nat.mod_add_mod]
        congr 1
        omega
    · have h1 := run_rejected c rs hc
      simp only [runCalls, acceptedCalls, hc, if_false, Nat.zero_add]
      rw [h1]
      exact ih rs h

theorem acceptedCalls_replicate (c : PublishCall) (hc : ∀ rs, (c.run rs).2 = none) (n : Nat) :
    ∀ rs, acceptedCalls (List.replicate n c) rs = n := by
  induction n with
  | zero => intro rs; rfl
  | succ n ih =>
    intro rs
    rw [List.replicate_succ, acceptedCalls, ih, if_pos (hc rs)]
    omega

theorem sampleCall_accepted (rs : RabbitService) : (sampleCall.run rs).2 = none := by
  simp [sampleCall, PublishCall.run, publishVia, Publish]

theorem replicate_ids (n : Nat) :
    handedIDs (runCalls (List.replicate n sampleCall) sampleService) =
      (List.range n).map (fun i => i % 2 ^ 64) := by
  have hn := acceptedCalls_replicate sampleCall sampleCall_accepted n sampleService
  have hids := (runCalls_ids (List.replicate n sampleCall) sampleService (by decide)).1
  have h0 : sampleService.letterCount = 0 := rfl
  have hnil : handedIDs sampleService = [] := rfl
  rw [hn, h0, hnil, List.nil_append] at hids
  rw [hids]
  apply List.map_congr_left
  intro a _
  rw [Nat.zero_add]

/-- C3, as stated, fails once the 64-bit counter wraps: after `2 ^ 64 + 1` accepted calls on a
fresh service, all accepted, the last call hands the publisher LetterID 0 (not `2 ^ 64`), the ID
the first call was given, so the IDs are not pairwise distinct. -/
theorem letterIDs_wrap_counterexample :
    sampleService.letterCount = 0 ∧ handedLetters sampleService = [] ∧
      acceptedCalls (List.replicate (2 ^ 64 + 1) sampleCall) sampleService = 2 ^ 64 + 1 ∧
      (handedIDs (runCalls (List.replicate (2 ^ 64 + 1) sampleCall) sampleService))[0]? = some 0 ∧
      (handedIDs (runCalls (List.replicate (2 ^ 64 + 1) sampleCall) sampleService))[2 ^ 64]? =
        some 0 ∧
      ¬ (handedIDs (runCalls (List.replicate (2 ^ 64 + 1) sampleCall) sampleService)).Nodup := by
  have hfirst :
      (handedIDs (runCalls (List.replicate (2 ^ 64 + 1) sampleCall) sampleService))[0]? =
        some 0 := by
    rw [replicate_ids, List.getElem?_map, List.getElem?_range (by omega)]
    rfl
  have hlast :
      (handedIDs (runCalls (List.replicate (2 ^ 64 + 1) sampleCall) sampleService))[2 ^ 64]? =
        some 0 := by
    rw [replicate_ids, List.getElem?_map, List.getElem?_range (by omega)]
    show some (2 ^ 64 % 2 ^ 64) = some 0
    rw [Nat.mod_self]
  refine ⟨rfl, rfl, acceptedCalls_replicate sampleCall sampleCall_accepted _ _, hfirst, hlast, ?_⟩
  intro hnd
  have hlen :
      (handedIDs (runCalls (List.replicate (2 ^ 64 + 1) sampleCall) sampleService)).length =
        2 ^ 64 + 1 := by
    rw [replicate_ids, List.length_map, List.length_range]
  have hne := List.nodup_iff_getElem?_ne_getElem?.1 hnd 0 (2 ^ 64) (by omega) (by omega)
  exact hne (hfirst.trans hlast.symm)

/-- C3 (amended): on a fresh service (`letterCount = 0`, nothing handed to the publisher yet) and
for every sequence of sequential calls, the k-th accepted call hands the publisher the LetterID
`(k - 1) mod 2 ^ 64`, and `letterCount` ends at the number of accepted calls modulo `2 ^ 64`; as
long as no more than `2 ^ 64` calls were accepted the IDs are `0, 1, ..., n - 1`, strictly
increasing and pairwise distinct.  From any state an accepted call hands out the current
`letterCount` and adds exactly 1 to it modulo `2 ^ 64`; a rejected call consumes no ID. -/
theorem letterIDs_monotonic_until_wrap (rs : RabbitService) (calls : List PublishCall)
    (hfresh : rs.letterCount = 0) (hnone : handedLetters rs = []) :
    handedIDs (runCalls calls rs) =
        (List.range (acceptedCalls calls rs)).map (fun i => i % 2 ^ 64) ∧
      (runCalls calls rs).letterCount = acceptedCalls calls rs % 2 ^ 64 ∧
      (acceptedCalls calls rs ≤ 2 ^ 64 →
        handedIDs (runCalls calls rs) = List.range (acceptedCalls calls rs) ∧
          (handedIDs (runCalls calls rs)).Pairwise (fun a b => a < b) ∧
          (handedIDs (runCalls calls rs)).Nodup) ∧
      (∀ (c : PublishCall) (s : RabbitService),
        ((c.run s).2 = none →
          (c.run s).1.letterCount = (s.letterCount + 1) % 2 ^ 64 ∧
            handedIDs (c.run s).1 = handedIDs s ++ [s.letterCount]) ∧
        ((c.run s).2 ≠ none →
          (c.run s).1.letterCount = s.letterCount ∧ handedIDs (c.run s).1 = handedIDs s)) := by
  have hlt : rs.letterCount < 2 ^ 64 := by
    rw [hfresh]
    decide
  obtain ⟨h1, h2⟩ := runCalls_ids calls rs hlt
  have hnil : handedIDs rs = [] := by
    simp only [handedIDs, hnone, List.map_nil]
  have hids : handedIDs (runCalls calls rs) =
      (List.range (acceptedCalls calls rs)).map (fun i => i % 2 ^ 64) := by
    rw [h1, hnil, hfresh, List.nil_append]
    apply List.map_congr_left
    intro a _
    rw [Nat.zero_add]
  refine ⟨hids, ?_, ?_, ?_⟩
  · rw [h2, hfresh, Nat.zero_add]
  · intro hle
    have hrange : handedIDs (runCalls calls rs) = List.range (acceptedCalls calls rs) := by
      rw [hids]
      conv_rhs => rw [← List.map_id (List.range (acceptedCalls calls rs))]
      apply List.map_congr_left
      intro a ha
      have : a < acceptedCalls calls rs := List.mem_range.1 ha
      exact Nat.mod_eq_of_lt (by omega)
    refine ⟨hrange, ?_, ?_⟩
    · rw [hrange]
      exact List.pairwise_lt_range _
    · rw [hrange]
      exact List.nodup_range _
  · intro c s
    refine ⟨run_accepted c s, ?_⟩
    intro hrej
    rw [run_rejected c s hrej]
    exact ⟨rfl, rfl⟩

theorem letterIDs_monotonic_until_wrap_witness :
    sampleService.letterCount = 0 ∧ handedLetters sampleService = [] ∧
      handedIDs (runCalls [sampleCall, { sampleCall with body := none }, sampleCall]
        sampleService) = [0, 1] :=
  ⟨rfl, rfl,
    ((letterIDs_monotonic_until_wrap sampleService
      [sampleCall, { sampleCall with body := none }, sampleCall] rfl rfl).1).trans (by decide)⟩

/-! ## Consumers from configuration -/

/-- C4: at a name that has no entry in `Config.ConsumerConfigs` the code of
`CreateConsumerFromConfig` returns nil, not an error; it registers no consumer and leaves the
service as it was. -/
theorem createConsumerFromConfig_missing_returns_nil (env : Env) (rs : RabbitService)
    (consumerName : String) (h : rs.Config.ConsumerConfigs.get consumerName = none) :
    (CreateConsumerFromConfig env rs consumerName).2 = none ∧
      (CreateConsumerFromConfig env rs consumerName).1 = rs ∧
      (GetConsumer (CreateConsumerFromConfig env rs consumerName).1 consumerName).1 =
        (GetConsumer rs consumerName).1 := by
  simp [CreateConsumerFromConfig, h]

theorem createConsumerFromConfig_missing_returns_nil_witness :
    sampleService.Config.ConsumerConfigs.get "missing" = none ∧
      (CreateConsumerFromConfig sampleEnv sampleService "missing").2 = none :=
  ⟨by decide, (createConsumerFromConfig_missing_returns_nil sampleEnv sampleService "missing"
    (by decide)).1⟩

/-! ## Stop signal and background goroutines -/

theorem drainConsumerErrors_eq (stop : Bool) (errs central : Chan GoError) :
    drainConsumerErrors stop errs central =
      if stop then Drain.stopped errs central
      else
        match errs.tryRecv none with
        | none => Drain.drained errs central
        | some (err, errs') =>
          match central.send err with
          | none => Drain.blocked errs' central
          | some central' => drainConsumerErrors stop errs' central' := by
  rw [drainConsumerErrors]
  split
  · rfl
  · split
    · rename_i h
      simp only [h]
    · rename_i err errs' h
      simp only [h]
      split
      · rename_i hs
        simp only [hs]
      · rename_i c hs
        simp only [hs]

theorem drainConsumerErrors_not_stopped (errs central : Chan GoError) :
    ∀ e c, drainConsumerErrors false errs central ≠ Drain.stopped e c := by
  induction errs, central using drainConsumerErrors.induct false with
  | case1 errs central h => simp at h
  | case2 errs central _ h =>
    intro e c
    rw [drainConsumerErrors_eq]
    simp [h]
  | case3 errs central _ err errs' h hs =>
    intro e c
    rw [drainConsumerErrors_eq]
    simp [h, hs]
  | case4 errs central _ err errs' h central' hs ih =>
    intro e c
    rw [drainConsumerErrors_eq]
    simp [h, hs, ih]

theorem rangeConsumerErrors_not_exit (cs : GoMap Consumer) :
    ∀ central, (rangeConsumerErrors false cs central).isExit = false := by
  induction cs with
  | nil => intro central; rfl
  | cons p rest ih =>
    intro central
    obtain ⟨name, consumer⟩ := p
    simp only [rangeConsumerErrors]
    cases hd : drainConsumerErrors false consumer.errors central with
    | stopped e c => exact absurd hd (drainConsumerErrors_not_stopped _ _ e c)
    | blocked e c => rfl
    | drained e c =>
      simp only
      have := ih c
      cases hr : rangeConsumerErrors false rest c with
      | exit s => rw [hr] at this; cases this
      | next s => rfl
      | blocked s => rfl

theorem taskIter_stop (t : Task) (rs : RabbitService) (ht : t ≠ Task.monitorStopService) :
    (taskIter t rs).state.stop = rs.stop ∧
      (taskIter t rs).state.stopServiceSignal = rs.stopServiceSignal ∧
      (taskIter t rs).state.tasks = rs.tasks := by
  cases t with
  | monitorStopService => exact absurd rfl ht
  | collectPublisherErrors =>
    simp only [taskIter, collectPublisherErrorsIter]
    split
    · exact ⟨rfl, rfl, rfl⟩
    · split <;> exact ⟨rfl, rfl, rfl⟩
  | collectChannelPoolErrors =>
    simp only [taskIter, collectChannelPoolErrorsIter]
    split
    · exact ⟨rfl, rfl, rfl⟩
    · split
      · split <;> exact ⟨rfl, rfl, rfl⟩
      · exact ⟨rfl, rfl, rfl⟩
  | collectConsumerErrors =>
    simp only [taskIter, collectConsumerErrorsIter]
    split <;> exact ⟨rfl, rfl, rfl⟩

theorem taskIter_not_exit (t : Task) (rs : RabbitService) (ht : t ≠ Task.monitorStopService)
    (hstop : rs.stop = false) : (taskIter t rs).isExit = false := by
  cases t with
  | monitorStopService => exact absurd rfl ht
  | collectPublisherErrors =>
    simp only [taskIter, collectPublisherErrorsIter, hstop, Bool.false_eq_true, if_false]
    split <;> rfl
  | collectChannelPoolErrors =>
    simp only [taskIter, collectChannelPoolErrorsIter, hstop]
    simp only [Bool.false_eq_true, if_false]
    split
    · split <;> rfl
    · rfl
  | collectConsumerErrors =>
    simp only [taskIter, collectConsumerErrorsIter, hstop]
    have := rangeConsumerErrors_not_exit rs.consumers rs.centralErr
    cases hr : rangeConsumerErrors false rs.consumers rs.centralErr with
    | exit s => rw [hr] at this; cases this
    | next s => rfl
    | blocked s => rfl

theorem stopService_returned (rs rs1 : RabbitService) (h : StopService rs = .returned rs1) :
    rs1.stop = rs.stop ∧ rs1.tasks = rs.tasks ∧
      rs1.stopServiceSignal.buf = rs.stopServiceSignal.buf ++ [true] ∧
      rs1.stopServiceSignal.cap = rs.stopServiceSignal.cap ∧
      rs.stopServiceSignal.buf.length < rs.stopServiceSignal.cap ∧
      rs1.consumers = rs.consumers ∧ rs1.centralErr = rs.centralErr := by
  unfold StopService at h
  simp only [Chan.send] at h
  split at h
  · rename_i c hc
    split at hc
    · cases hc
      cases h
      simp_all
    · cases hc
  · cases h

theorem stopService_full (rs : RabbitService)
    (h : rs.stopServiceSignal.cap ≤ rs.stopServiceSignal.buf.length) :
    (StopService rs).isReturned = false := by
  unfold StopService
  simp only [Chan.send, Nat.not_lt.2 h, if_false]
  rfl

theorem shutdown_returned (rs rs1 : RabbitService) (b : Bool)
    (h : Shutdown rs b = .returned rs1) :
    rs1.stop = rs.stop ∧ rs1.tasks = rs.tasks ∧
      rs1.stopServiceSignal.buf = rs.stopServiceSignal.buf ++ [true] ∧
      rs1.stopServiceSignal.cap = rs.stopServiceSignal.cap ∧
      rs.stopServiceSignal.buf.length < rs.stopServiceSignal.cap := by
  unfold Shutdown at h
  cases hs : StopService rs with
  | blocked s =>
    rw [hs] at h
    cases h
  | returned s =>
    obtain ⟨a1, a2, a3, a4, a5, _, _⟩ := stopService_returned rs s hs
    rw [hs] at h
    simp only [Outcome.andThen] at h
    split at h
    · cases hl : stopConsumersLoop s.consumers s.centralErr with
      | blocked p =>
        rw [hl] at h
        cases h
      | returned p =>
        rw [hl] at h
        cases h
        exact ⟨a1, a2, a3, a4, a5⟩
    · cases h
      exact ⟨a1, a2, a3, a4, a5⟩

theorem shutdown_full (rs : RabbitService) (b : Bool)
    (h : rs.stopServiceSignal.cap ≤ rs.stopServiceSignal.buf.length) :
    (Shutdown rs b).isReturned = false := by
  have hs := stopService_full rs h
  unfold Shutdown
  cases hq : StopService rs with
  | blocked s => rfl
  | returned s =>
    rw [hq] at hs
    cases hs

theorem step_preserves (rs rs' : RabbitService) (h : Step rs rs')
    (hmon : Task.monitorStopService ∉ rs.tasks) :
    rs'.stopServiceSignal = rs.stopServiceSignal ∧ Task.monitorStopService ∉ rs'.tasks ∧
      rs'.stop = rs.stop ∧ (rs.stop = false → rs'.tasks = rs.tasks) := by
  cases h with
  | env _ hstop hsig htasks =>
    refine ⟨hsig, ?_, hstop, fun _ => htasks⟩
    rw [htasks]
    exact hmon
  | task t ht =>
    have hne : t ≠ Task.monitorStopService := fun he => hmon (he ▸ ht)
    obtain ⟨h1, h2, h3⟩ := taskIter_stop t rs hne
    have hex := taskIter_not_exit t rs hne
    unfold stepTask
    cases hi : taskIter t rs with
    | exit s =>
      rw [hi] at h1 h2 h3 hex
      simp only [Iter.state] at h1 h2 h3
      refine ⟨h2, ?_, h1, ?_⟩
      · intro hm
        have := List.mem_of_mem_erase hm
        rw [h3] at this
        exact hmon this
      · intro hstop
        have := hex hstop
        cases this
    | next s =>
      rw [hi] at h1 h2 h3
      simp only [Iter.state] at h1 h2 h3
      refine ⟨h2, ?_, h1, fun _ => h3⟩
      rw [h3]
      exact hmon
    | blocked s =>
      rw [hi] at h1 h2 h3
      simp only [Iter.state] at h1 h2 h3
      refine ⟨h2, ?_, h1, fun _ => h3⟩
      rw [h3]
      exact hmon

theorem reachable_preserves (rs rs' : RabbitService) (h : Reachable rs rs')
    (hmon : Task.monitorStopService ∉ rs.tasks) :
    rs'.stopServiceSignal = rs.stopServiceSignal ∧ Task.monitorStopService ∉ rs'.tasks ∧
      rs'.stop = rs.stop ∧ (rs.stop = false → rs'.tasks = rs.tasks) := by
  induction h with
  | refl => exact ⟨rfl, hmon, rfl, fun _ => rfl⟩
  | step mid last _ hstep ih =>
    obtain ⟨i1, i2, i3, i4⟩ := ih
    obtain ⟨s1, s2, s3, s4⟩ := step_preserves mid last hstep i2
    refine ⟨s1.trans i1, s2, s3.trans i3, ?_⟩
    intro hstop
    rw [s4 (i3.trans hstop), i4 hstop]

theorem startService_fields (rs : RabbitService) :
    (StartService rs).stop = rs.stop ∧
      (StartService rs).stopServiceSignal = rs.stopServiceSignal ∧
      (StartService rs).tasks =
        rs.tasks ++ [Task.collectPublisherErrors, Task.collectChannelPoolErrors,
          Task.collectConsumerErrors] := by
  simp [StartService, collectPublisherErrors, collectChannelPoolErrors, collectConsumerErrors,
    spawn]

/-- With no consumer registered, a pass of `collectConsumerErrors` never reads the `stop` flag:
the check sits inside the `range` over the consumers. -/
theorem collectConsumerErrors_no_consumers (rs : RabbitService) (h : rs.consumers = []) :
    (collectConsumerErrorsIter rs).isExit = false := by
  simp [collectConsumerErrorsIter, h, rangeConsumerErrors, Iter.isExit]

/-- Had `monitorStopService` been started, its pass after a `StopService` that returned takes the
signal, sets the `stop` flag, and the collectors leave their loops at their next check. -/
theorem monitor_pass_sets_stop (rs rs1 : RabbitService) (h : StopService rs = .returned rs1) :
    (monitorStopServiceIter rs1).isExit = true ∧
      (monitorStopServiceIter rs1).state.stop = true ∧
      (collectPublisherErrorsIter (monitorStopServiceIter rs1).state).isExit = true ∧
      (collectChannelPoolErrorsIter (monitorStopServiceIter rs1).state).isExit = true := by
  obtain ⟨_, _, a3, _, _, _, _⟩ := stopService_returned rs rs1 h
  have hrecv : ∃ v c, rs1.stopServiceSignal.tryRecv false = some (v, c) := by
    unfold Chan.tryRecv
    cases hb : rs.stopServiceSignal.buf with
    | nil =>
      rw [hb] at a3
      rw [a3]
      exact ⟨_, _, rfl⟩
    | cons x xs =>
      rw [hb] at a3
      rw [a3]
      exact ⟨_, _, rfl⟩
  obtain ⟨v, c, hvc⟩ := hrecv
  simp [monitorStopServiceIter, hvc, Iter.isExit, Iter.state, collectPublisherErrorsIter,
    collectChannelPoolErrorsIter]

/-- C5: on a service whose stop-signal stream has capacity 1 and on which `monitorStopService`
was never started (as `NewRabbitService` and `StartService` leave it), once a first `Shutdown`
has returned, a second `Shutdown` does not return: whatever the collectors and the environment do
in between, the first signal still fills the stream and `StopService` parks on its send. -/
theorem second_shutdown_blocks (rs rs1 rs2 : RabbitService) (b1 b2 : Bool)
    (hcap : rs.stopServiceSignal.cap = 1) (hmon : Task.monitorStopService ∉ rs.tasks)
    (h1 : Shutdown rs b1 = .returned rs1) (hreach : Reachable rs1 rs2) :
    rs2.stopServiceSignal.buf = [true] ∧ (StopService rs2).isReturned = false ∧
      (Shutdown rs2 b2).isReturned = false := by
  obtain ⟨_, a2, a3, a4, a5⟩ := shutdown_returned rs rs1 b1 h1
  have hmon1 : Task.monitorStopService ∉ rs1.tasks := by
    rw [a2]
    exact hmon
  obtain ⟨r1, _, _, _⟩ := reachable_preserves rs1 rs2 hreach hmon1
  have hnil : rs.stopServiceSignal.buf = [] := by
    rw [hcap] at a5
    exact List.length_eq_zero.1 (by omega)
  have hbuf : rs2.stopServiceSignal.buf = [true] := by
    rw [r1, a3, hnil]
    rfl
  have hfull : rs2.stopServiceSignal.cap ≤ rs2.stopServiceSignal.buf.length := by
    rw [hbuf, r1, a4, hcap]
    exact le_refl _
  exact ⟨hbuf, stopService_full rs2 hfull, shutdown_full rs2 b2 hfull⟩

theorem second_shutdown_blocks_witness :
    (Shutdown sampleService true).isReturned = true ∧
      (Shutdown (Shutdown sampleService true).state true).isReturned = false :=
  ⟨by decide,
    (second_shutdown_blocks sampleService (Shutdown sampleService true).state
      (Shutdown sampleService true).state true true rfl (by decide) (by decide)
      (Reachable.refl _)).2.2⟩

/-- C6: on a service whose `stop` flag is unset and on which `monitorStopService` was never
started (as `NewRabbitService` leaves it), after `StartService` and a `Shutdown` that returned,
and whatever the collectors and the environment do afterwards, the `stop` flag is still unset, the
stop signal sent by `StopService` is still unread, the three collectors are still running and
none of them leaves its loop at its next check of the flag. -/
theorem collectors_outlive_shutdown (rs rs1 rs2 : RabbitService) (b : Bool)
    (hstop : rs.stop = false) (hmon : Task.monitorStopService ∉ rs.tasks)
    (h1 : Shutdown (StartService rs) b = .returned rs1) (hreach : Reachable rs1 rs2) :
    rs2.stop = false ∧
      rs2.stopServiceSignal.buf = rs.stopServiceSignal.buf ++ [true] ∧
      Task.monitorStopService ∉ rs2.tasks ∧
      Task.collectPublisherErrors ∈ rs2.tasks ∧
      Task.collectChannelPoolErrors ∈ rs2.tasks ∧
      Task.collectConsumerErrors ∈ rs2.tasks ∧
      (collectPublisherErrorsIter rs2).isExit = false ∧
      (collectChannelPoolErrorsIter rs2).isExit = false ∧
      (collectConsumerErrorsIter rs2).isExit = false := by
  obtain ⟨s1, s2, s3⟩ := startService_fields rs
  obtain ⟨a1, a2, a3, _, _⟩ := shutdown_returned (StartService rs) rs1 b h1
  have hstop1 : rs1.stop = false := by rw [a1, s1, hstop]
  have htasks1 : rs1.tasks = rs.tasks ++ [Task.collectPublisherErrors,
      Task.collectChannelPoolErrors, Task.collectConsumerErrors] := by rw [a2, s3]
  have hmon1 : Task.monitorStopService ∉ rs1.tasks := by
    rw [htasks1]
    simp [hmon]
  obtain ⟨r1, r2, r3, r4⟩ := reachable_preserves rs1 rs2 hreach hmon1
  have hstop2 : rs2.stop = false := by rw [r3, hstop1]
  have htasks2 := (r4 hstop1).trans htasks1
  refine ⟨hstop2, ?_, r2, ?_, ?_, ?_, ?_, ?_, ?_⟩
  · rw [r1, a3, s2]
  · rw [htasks2]; simp
  · rw [htasks2]; simp
  · rw [htasks2]; simp
  · exact taskIter_not_exit Task.collectPublisherErrors rs2 (by decide) hstop2
  · exact taskIter_not_exit Task.collectChannelPoolErrors rs2 (by decide) hstop2
  · exact taskIter_not_exit Task.collectConsumerErrors rs2 (by decide) hstop2

theorem collectors_outlive_shutdown_witness :
    (Shutdown (StartService sampleService) true).isReturned = true ∧
      (Shutdown (StartService sampleService) true).state.stop = false ∧
      (collectChannelPoolErrorsIter (Shutdown (StartService sampleService) true).state).isExit =
        false :=
  ⟨by decide,
    (collectors_outlive_shutdown sampleService (Shutdown (StartService sampleService) true).state
      (Shutdown (StartService sampleService) true).state true rfl (by decide) (by decide)
      (Reachable.refl _)).1,
    (collectors_outlive_shutdown sampleService (Shutdown (StartService sampleService) true).state
      (Shutdown (StartService sampleService) true).state true rfl (by decide) (by decide)
      (Reachable.refl _)).2.2.2.2.2.2.2.1⟩

/-! ## Error fan-in into `centralErr` -/

/-- C7, as stated, fails: with the central stream full (capacity 1, one unread entry) the
channel-pool collector, the consumer collector and `Shutdown` with a consumer that fails to stop
all park on their send, and the entry held by the central stream is not dropped. -/
theorem fan_in_blocks_counterexample :
    fullService.centralErr.cap = fullService.Config.ServiceConfig.ErrorBuffer ∧
      fullService.centralErr.buf.length = fullService.Config.ServiceConfig.ErrorBuffer ∧
      (collectChannelPoolErrorsIter fullService).isBlocked = true ∧
      (collectChannelPoolErrorsIter fullService).state.centralErr.buf = [some "old"] ∧
      (collectConsumerErrorsIter fullService).isBlocked = true ∧
      (collectConsumerErrorsIter fullService).state.centralErr.buf = [some "old"] ∧
      (Shutdown fullService true).isReturned = false ∧
      (Shutdown fullService true).state.centralErr.buf = [some "old"] := by
  refine ⟨by decide, by decide, by decide, by decide, ?_, ?_, by decide, by decide⟩
  · simp [collectConsumerErrorsIter, rangeConsumerErrors, fullService, sampleService,
      drainConsumerErrors_eq, Chan.tryRecv, Chan.send, Iter.isBlocked]
  · simp [collectConsumerErrorsIter, rangeConsumerErrors, fullService, sampleService,
      drainConsumerErrors_eq, Chan.tryRecv, Chan.send, Iter.state]

/-- C7 (amended): forwarding an error into the central stream is a plain send on a bounded
stream.  Whenever the central stream holds fewer entries than its capacity, the forward completes
at once and the error is appended behind the entries already held; whenever it is full, the
producer parks on the send and the entries held stay as they are.  This holds for the channel-pool
collector, for the consumer collector and for a `StopConsuming` failure inside `Shutdown`. -/
theorem fan_in_is_plain_send (central : Chan GoError) :
    (∀ (rs : RabbitService) (err : GoError) (c : Chan GoError),
        rs.centralErr = central → rs.stop = false →
        rs.ChannelPool.errors.tryRecv none = some (err, c) →
        (central.buf.length < central.cap →
          collectChannelPoolErrorsIter rs =
            .next { rs with ChannelPool := { rs.ChannelPool with errors := c },
                            centralErr := { central with buf := central.buf ++ [err] } }) ∧
        (central.cap ≤ central.buf.length →
          collectChannelPoolErrorsIter rs =
            .blocked { rs with ChannelPool := { rs.ChannelPool with errors := c } })) ∧
      (∀ (errs errs' : Chan GoError) (err : GoError),
        errs.tryRecv none = some (err, errs') →
        (central.buf.length < central.cap →
          drainConsumerErrors false errs central =
            drainConsumerErrors false errs' { central with buf := central.buf ++ [err] }) ∧
        (central.cap ≤ central.buf.length →
          drainConsumerErrors false errs central = .blocked errs' central)) ∧
      (∀ (name : String) (consumer : Consumer) (rest : GoMap Consumer) (err : String),
        consumer.stopResult = some err →
        (central.buf.length < central.cap →
          stopConsumersLoop ((name, consumer) :: rest) central =
            (stopConsumersLoop rest { central with buf := central.buf ++ [some err] }).andThen
              (fun p => ((name, { consumer with
                stopCalls := consumer.stopCalls ++ [(true, true)] }) :: p.1, p.2))
              (fun p => .returned ((name, { consumer with
                stopCalls := consumer.stopCalls ++ [(true, true)] }) :: p.1, p.2))) ∧
        (central.cap ≤ central.buf.length →
          stopConsumersLoop ((name, consumer) :: rest) central =
            .blocked ((name, { consumer with
              stopCalls := consumer.stopCalls ++ [(true, true)] }) :: rest, central))) := by
  refine ⟨?_, ?_, ?_⟩
  · intro rs err c hc hstop hrecv
    subst hc
    constructor
    · intro hroom
      simp [collectChannelPoolErrorsIter, hstop, hrecv, Chan.send, hroom]
    · intro hfull
      simp [collectChannelPoolErrorsIter, hstop, hrecv, Chan.send, Nat.not_lt.2 hfull]
  · intro errs errs' err hrecv
    constructor
    · intro hroom
      rw [drainConsumerErrors_eq]
      simp [hrecv, Chan.send, hroom]
    · intro hfull
      rw [drainConsumerErrors_eq]
      simp [hrecv, Chan.send, Nat.not_lt.2 hfull]
  · intro name consumer rest err hres
    constructor
    · intro hroom
      simp [stopConsumersLoop, hres, Chan.send, hroom]
    · intro hfull
      simp [stopConsumersLoop, hres, Chan.send, Nat.not_lt.2 hfull]

theorem fan_in_is_plain_send_witness :
    fullService.centralErr.cap ≤ fullService.centralErr.buf.length ∧
      collectChannelPoolErrorsIter fullService =
        .blocked { fullService with ChannelPool :=
          { fullService.ChannelPool with errors := { buf := [], cap := 1, closed := false } } } :=
  ⟨by decide,
    ((fan_in_is_plain_send fullService.centralErr).1 fullService (some "pool")
      { buf := [], cap := 1, closed := false } rfl rfl rfl).2 (by decide)⟩

/-! ## `ChannelHost` -/

/-- One call of `CloseErrors` on a host in any state: it takes at most one pending entry from
`closeErrors` without waiting and touches nothing else but `ErrorMessages`.  If nothing is
pending, or the entry taken is nil, `ErrorMessages` is left unchanged and the call returns.  If
the entry is a non-nil close reason and `ErrorMessages` has room, the reason is wrapped as an
`ErrorMessage`, appended to `ErrorMessages`, and the call returns; with `ErrorMessages` full the
call would park on the send. -/
theorem closeErrors_drains_one (ch : ChannelHost) :
    ch.CloseErrors.state.closeErrors.buf = ch.closeErrors.buf.tail ∧
      { ch.CloseErrors.state with
          closeErrors := ch.closeErrors, ErrorMessages := ch.ErrorMessages } = ch ∧
      (ch.closeErrors.buf = [] → ch.CloseErrors = .returned ch) ∧
      (∀ rest, ch.closeErrors.buf = none :: rest →
        ch.CloseErrors = .returned { ch with closeErrors := { ch.closeErrors with buf := rest } }) ∧
      (∀ e rest, ch.closeErrors.buf = some e :: rest →
        ch.ErrorMessages.buf.length < ch.ErrorMessages.cap →
        ch.CloseErrors =
          .returned { ch with
            closeErrors := { ch.closeErrors with buf := rest }
            ErrorMessages :=
              { ch.ErrorMessages with buf := ch.ErrorMessages.buf ++ [NewErrorMessage e] } }) ∧
      (∀ e rest, ch.closeErrors.buf = some e :: rest →
        ch.ErrorMessages.cap ≤ ch.ErrorMessages.buf.length →
        ch.CloseErrors = .blocked { ch with closeErrors := { ch.closeErrors with buf := rest } }) := by
  obtain ⟨chan, cid, connid, ack, em, rm, ce, ret⟩ := ch
  obtain ⟨buf, cap, closed⟩ := ce
  refine ⟨?_, ?_, ?_, ?_, ?_, ?_⟩
  · cases buf with
    | nil => cases closed <;> simp [ChannelHost.CloseErrors, Chan.tryRecv, Outcome.state]
    | cons x rest =>
      cases x with
      | none => simp [ChannelHost.CloseErrors, Chan.tryRecv, Outcome.state]
      | some e =>
        by_cases hroom : em.buf.length < em.cap <;>
          simp [ChannelHost.CloseErrors, Chan.tryRecv, Chan.send, Outcome.state, hroom]
  · cases buf with
    | nil => cases closed <;> simp [ChannelHost.CloseErrors, Chan.tryRecv, Outcome.state]
    | cons x rest =>
      cases x with
      | none => simp [ChannelHost.CloseErrors, Chan.tryRecv, Outcome.state]
      | some e =>
        by_cases hroom : em.buf.length < em.cap <;>
          simp [ChannelHost.CloseErrors, Chan.tryRecv, Chan.send, Outcome.state, hroom]
  · intro h
    simp only at h
    subst h
    cases closed <;> simp [ChannelHost.CloseErrors, Chan.tryRecv]
  · intro rest h
    simp only at h
    subst h
    simp [ChannelHost.CloseErrors, Chan.tryRecv]
  · intro e rest h hroom
    simp only at h hroom
    subst h
    simp [ChannelHost.CloseErrors, Chan.tryRecv, Chan.send, hroom]
  · intro e rest h hfull
    simp only at h hfull
    subst h
    simp [ChannelHost.CloseErrors, Chan.tryRecv, Chan.send, Nat.not_lt.2 hfull]

theorem closeSession_step_inv (s : CloseSession) (e : CloseEvent)
    (hb : s.blocked = false) (hcap : s.host.ErrorMessages.cap = 1)
    (hce : s.host.closeErrors.cap = 1)
    (hfresh : s.shut = false → s.host.closeErrors.buf = [] ∧ s.host.ErrorMessages.buf = [])
    (hone : s.host.closeErrors.buf.length + s.host.ErrorMessages.buf.length ≤ 1) :
    (s.step e).blocked = false ∧ (s.step e).host.ErrorMessages.cap = 1 ∧
      (s.step e).host.closeErrors.cap = 1 ∧
      ((s.step e).shut = false →
        (s.step e).host.closeErrors.buf = [] ∧ (s.step e).host.ErrorMessages.buf = []) ∧
      (s.step e).host.closeErrors.buf.length + (s.step e).host.ErrorMessages.buf.length ≤ 1 := by
  obtain ⟨host, shut, delivered, blocked⟩ := s
  obtain ⟨chan, cid, connid, ack, em, rm, ce, raw⟩ := host
  obtain ⟨cbuf, ccap, cclosed⟩ := ce
  obtain ⟨ebuf, ecap, eclosed⟩ := em
  simp only at hb hcap hce hfresh hone
  subst hb hcap hce
  cases e with
  | shutdown reason =>
    cases shut with
    | true => simpa [CloseSession.step] using hone
    | false =>
      obtain ⟨h1, h2⟩ := hfresh rfl
      subst h1 h2
      cases reason <;> simp [CloseSession.step, closeNotify, Chan.send]
  | call =>
    cases cbuf with
    | nil =>
      simp only [List.length_nil, Nat.zero_add, true_and] at hfresh hone
      cases cclosed <;>
        simp [CloseSession.step, ChannelHost.CloseErrors, Chan.tryRecv, hone] <;>
        exact hfresh
    | cons x rest =>
      have hshut : shut = true := by
        cases shut with
        | true => rfl
        | false =>
          have := (hfresh rfl).1
          cases this
      subst hshut
      simp only [List.length_cons] at hone
      have hrest : rest = [] := List.length_eq_zero.1 (by omega)
      have hebuf : ebuf = [] := List.length_eq_zero.1 (by omega)
      subst hrest hebuf
      cases x <;>
        simp [CloseSession.step, ChannelHost.CloseErrors, Chan.tryRecv, Chan.send]
  | read =>
    refine ⟨rfl, rfl, rfl, ?_, ?_⟩
    · intro hs
      obtain ⟨h1, h2⟩ := hfresh hs
      subst h1 h2
      exact ⟨rfl, rfl⟩
    · simp only [CloseSession.step, List.length_tail]
      omega

theorem closeSession_run_inv (events : List CloseEvent) :
    ∀ s : CloseSession, s.blocked = false → s.host.ErrorMessages.cap = 1 →
      s.host.closeErrors.cap = 1 →
      (s.shut = false → s.host.closeErrors.buf = [] ∧ s.host.ErrorMessages.buf = []) →
      s.host.closeErrors.buf.length + s.host.ErrorMessages.buf.length ≤ 1 →
      (s.run events).blocked = false ∧ (s.run events).host.ErrorMessages.cap = 1 ∧
        (s.run events).host.closeErrors.buf.length +
          (s.run events).host.ErrorMessages.buf.length ≤ 1 := by
  induction events with
  | nil =>
    intro s hb hcap _ _ hone
    exact ⟨hb, hcap, hone⟩
  | cons e rest ih =>
    intro s hb hcap hce hfresh hone
    obtain ⟨a, b, c, d, f⟩ := closeSession_step_inv s e hb hcap hce hfresh hone
    exact ih (s.step e) a b c d f

theorem newChannelHost_streams (amqpConn : AmqpConnection) (channelID connectionID : Nat)
    (ackable : Bool) (host : ChannelHost)
    (h : (NewChannelHost amqpConn channelID connectionID ackable).1 = some host) :
    host.ErrorMessages = Chan.make 1 ∧ host.ReturnMessages = Chan.make 1 ∧
      host.closeErrors = Chan.make 1 ∧ host.returnMessages = Chan.make 1 := by
  obtain ⟨closed, channel⟩ := amqpConn
  cases closed
  · cases channel with
    | error e => simp [NewChannelHost] at h
    | ok c =>
      simp [NewChannelHost] at h
      subst h
      exact ⟨rfl, rfl, rfl, rfl⟩
  · simp [NewChannelHost] at h

/-- C8: on every host built by `NewChannelHost`, at any point of its life (the amqp channel
shutting down with or without a reason, calls of `CloseErrors` and reads of `ErrorMessages`, in
any order), no call of `CloseErrors` has parked and the next call returns the `ErrorMessages`
stream of the host, having taken at most one pending entry from `closeErrors` without waiting
and touched nothing else but `ErrorMessages`: if the entry taken is a non-nil close reason it is
wrapped as an `ErrorMessage` and appended to `ErrorMessages`; if it is nil or nothing is pending,
`ErrorMessages` is left unchanged. -/
theorem closeErrors_drains_opportunistically (amqpConn : AmqpConnection)
    (channelID connectionID : Nat) (ackable : Bool) (host : ChannelHost)
    (events : List CloseEvent)
    (hnew : (NewChannelHost amqpConn channelID connectionID ackable).1 = some host) :
    ((CloseSession.start host).run events).blocked = false ∧
      ((CloseSession.start host).run events).host.CloseErrors.isReturned = true ∧
      ((CloseSession.start host).run events).host.CloseErrors.state.closeErrors.buf =
        ((CloseSession.start host).run events).host.closeErrors.buf.tail ∧
      { ((CloseSession.start host).run events).host.CloseErrors.state with
          closeErrors := ((CloseSession.start host).run events).host.closeErrors
          ErrorMessages := ((CloseSession.start host).run events).host.ErrorMessages } =
        ((CloseSession.start host).run events).host ∧
      (∀ e rest,
        ((CloseSession.start host).run events).host.closeErrors.buf = some e :: rest →
        ((CloseSession.start host).run events).host.CloseErrors.state.ErrorMessages =
          { ((CloseSession.start host).run events).host.ErrorMessages with
            buf := ((CloseSession.start host).run events).host.ErrorMessages.buf ++
              [NewErrorMessage e] }) ∧
      (∀ rest,
        ((CloseSession.start host).run events).host.closeErrors.buf = none :: rest →
        ((CloseSession.start host).run events).host.CloseErrors.state.ErrorMessages =
          ((CloseSession.start host).run events).host.ErrorMessages) ∧
      (((CloseSession.start host).run events).host.closeErrors.buf = [] →
        ((CloseSession.start host).run events).host.CloseErrors =
          .returned ((CloseSession.start host).run events).host) := by
  obtain ⟨s1, _, s3, _⟩ := newChannelHost_streams amqpConn channelID connectionID ackable host hnew
  obtain ⟨hb, hcap, hone⟩ := closeSession_run_inv events (CloseSession.start host) rfl
    (by simp [CloseSession.start, s1, Chan.make]) (by simp [CloseSession.start, s3, Chan.make])
    (by intro _; simp [CloseSession.start, s1, s3, Chan.make])
    (by simp [CloseSession.start, s1, s3, Chan.make])
  generalize (CloseSession.start host).run events = s at hb hcap hone ⊢
  obtain ⟨d1, d2, d3, d4, d5, _⟩ := closeErrors_drains_one s.host
  have hroom : ∀ e rest, s.host.closeErrors.buf = some e :: rest →
      s.host.ErrorMessages.buf.length < s.host.ErrorMessages.cap := by
    intro e rest h
    rw [h] at hone
    simp only [List.length_cons] at hone
    omega
  refine ⟨hb, ?_, d1, d2, ?_, ?_, d3⟩
  · cases hbuf : s.host.closeErrors.buf with
    | nil => rw [d3 hbuf]; rfl
    | cons x rest =>
      cases x with
      | none => rw [d4 rest hbuf]; rfl
      | some e => rw [d5 e rest hbuf (hroom e rest hbuf)]; rfl
  · intro e rest h
    rw [d5 e rest h (hroom e rest h)]
    rfl
  · intro rest h
    rw [d4 rest h]
    rfl

theorem closeErrors_drains_opportunistically_witness :
    (NewChannelHost openConnection 1 1 false).1 = some freshHost ∧
      ((CloseSession.start freshHost).run
        [CloseEvent.call, CloseEvent.shutdown (some sampleAmqpError), CloseEvent.call,
          CloseEvent.call]).host.ErrorMessages.buf = [NewErrorMessage sampleAmqpError] ∧
      ((CloseSession.start freshHost).run
        [CloseEvent.call, CloseEvent.shutdown (some sampleAmqpError), CloseEvent.call,
          CloseEvent.call]).host.CloseErrors.isReturned = true :=
  ⟨rfl, by decide,
    (closeErrors_drains_opportunistically openConnection 1 1 false freshHost
      [CloseEvent.call, CloseEvent.shutdown (some sampleAmqpError), CloseEvent.call,
        CloseEvent.call] rfl).2.1⟩

/-- C9: on a connection that is already closed `NewChannelHost` returns a nil host and the
error `connectionClosedError`, having made no amqp call but
`IsClosed`: no channel is opened and no notification stream registered.  On an open connection
whose `Channel()` fails it returns a nil host and that error, again registering nothing. -/
theorem newChannelHost_errors (amqpConn : AmqpConnection) (channelID connectionID : Nat)
    (ackable : Bool) :
    connectionClosedError = "can\x27t open a channel - connection is already closed" ∧
      (amqpConn.closed = true →
        NewChannelHost amqpConn channelID connectionID ackable =
          (none, some connectionClosedError, [AmqpCall.IsClosed])) ∧
      (∀ err, amqpConn.closed = false → amqpConn.channel = .error err →
        NewChannelHost amqpConn channelID connectionID ackable =
          (none, some err, [AmqpCall.IsClosed, AmqpCall.Channel])) := by
  refine ⟨rfl, ?_, ?_⟩
  · intro h
    simp [NewChannelHost, h]
  · intro err h herr
    simp [NewChannelHost, h, herr]

theorem newChannelHost_errors_witness :
    NewChannelHost { closed := true, channel := .ok { id := 7 } } 1 1 true =
        (none, some connectionClosedError, [AmqpCall.IsClosed]) ∧
      NewChannelHost { closed := false, channel := .error "channel max reached" } 1 1 true =
        (none, some "channel max reached", [AmqpCall.IsClosed, AmqpCall.Channel]) :=
  ⟨(newChannelHost_errors { closed := true, channel := .ok { id := 7 } } 1 1 true).2.1 rfl,
    (newChannelHost_errors { closed := false, channel := .error "channel max reached" }
      1 1 true).2.2 "channel max reached" rfl rfl⟩

/-- C10, as stated, fails: `NewChannelHost` called with `ackable = true` on an open connection
returns an ackable host without having sent `confirm.select` on its channel. -/
theorem newChannelHost_no_confirm_counterexample :
    (NewChannelHost openConnection 1 1 true).2.2 =
        [AmqpCall.IsClosed, AmqpCall.Channel, AmqpCall.NotifyClose { id := 7 },
          AmqpCall.NotifyReturn { id := 7 }] ∧
      (NewChannelHost openConnection 1 1 true).2.2.any AmqpCall.isConfirm = false ∧
      (NewChannelHost openConnection 1 1 true).1.map ChannelHost.IsAckable = some true := by
  decide

/-- C10 (amended): `NewChannelHost` sends `confirm.select` for neither value of `ackable`: on an
open connection whose `Channel()` succeeds it opens the channel, registers the close and return
notification streams, and records the flag, so that `IsAckable()` on the returned host equals the
`ackable` argument. -/
theorem newChannelHost_records_ackable (amqpConn : AmqpConnection) (channelID connectionID : Nat)
    (ackable : Bool) :
    (NewChannelHost amqpConn channelID connectionID ackable).2.2.any AmqpCall.isConfirm = false ∧
      (∀ host, (NewChannelHost amqpConn channelID connectionID ackable).1 = some host →
        host.IsAckable = ackable) ∧
      (∀ amqpChan, amqpConn.closed = false → amqpConn.channel = .ok amqpChan →
        ∃ host, NewChannelHost amqpConn channelID connectionID ackable =
            (some host, none,
              [AmqpCall.IsClosed, AmqpCall.Channel, AmqpCall.NotifyClose amqpChan,
                AmqpCall.NotifyReturn amqpChan]) ∧
          host.IsAckable = ackable ∧ host.Channel = amqpChan ∧ host.ChannelID = channelID ∧
          host.ConnectionID = connectionID) := by
  obtain ⟨closed, channel⟩ := amqpConn
  refine ⟨?_, ?_, ?_⟩
  · cases closed
    · cases channel <;> simp [NewChannelHost, AmqpCall.isConfirm]
    · simp [NewChannelHost, AmqpCall.isConfirm]
  · intro host h
    cases closed
    · cases channel with
      | error e => simp [NewChannelHost] at h
      | ok c =>
        simp [NewChannelHost] at h
        subst h
        rfl
    · simp [NewChannelHost] at h
  · intro amqpChan h hc
    simp only at h hc
    subst h hc
    exact ⟨_, rfl, rfl, rfl, rfl, rfl⟩

theorem newChannelHost_records_ackable_witness :
    openConnection.closed = false ∧ openConnection.channel = .ok { id := 7 } ∧
      ∃ host, NewChannelHost openConnection 1 1 false =
          (some host, none,
            [AmqpCall.IsClosed, AmqpCall.Channel, AmqpCall.NotifyClose { id := 7 },
              AmqpCall.NotifyReturn { id := 7 }]) ∧
        host.IsAckable = false ∧ host.Channel = { id := 7 } ∧ host.ChannelID = 1 ∧
        host.ConnectionID = 1 :=
  ⟨rfl, rfl, (newChannelHost_records_ackable openConnection 1 1 false).2.2 { id := 7 } rfl rfl⟩

/-! ## Letters handed to the publisher -/

/-- The letter both entry points build for an accepted call. -/
theorem publishVia_accepted (withRetry : Bool) (rs : RabbitService) (body : Bytes)
    (exchangeName routingKey : String)
    (h : (publishVia withRetry rs body exchangeName routingKey).2 = none) :
    (publishVia withRetry rs body exchangeName routingKey).1 =
      { rs with
        letterCount := addUint64 rs.letterCount 1
        Publisher :=
          { rs.Publisher with
            calls := rs.Publisher.calls ++
              [(if withRetry then PublisherCall.PublishWithRetry else PublisherCall.Publish)
                { LetterID := rs.letterCount
                  RetryCount := rs.retryCount
                  Body := body
                  Envelope :=
                    { Exchange := exchangeName
                      RoutingKey := routingKey
                      ContentType := "application/json"
                      Mandatory := false
                      Immediate := false } }] } } := by
  by_cases hc : body = none ∨ (exchangeName = "" ∧ routingKey = "")
  · exfalso
    revert h
    cases withRetry <;> simp [publishVia, Publish, PublishWithRetry, hc]
  · cases withRetry <;> simp [publishVia, Publish, PublishWithRetry, hc]

/-- C11: the Letter an accepted `RabbitService.Publish` hands to `Publisher.Publish` carries
`RetryCount = rs.retryCount`, the same budget as the Letter of `PublishWithRetry`; on a service
built by `NewRabbitService` that is 10, not 0. -/
theorem publish_letter_carries_retry_count (env : Env) (config : RabbitSeasoning)
    (rs : RabbitService) (body : Bytes) (exchangeName routingKey : String)
    (hnew : NewRabbitService env config = .ok rs)
    (h : (Publish rs body exchangeName routingKey).2 = none) :
    rs.retryCount = 10 ∧
      handedLetters (Publish rs body exchangeName routingKey).1 =
        handedLetters rs ++
          [{ LetterID := rs.letterCount
             RetryCount := 10
             Body := body
             Envelope :=
               { Exchange := exchangeName
                 RoutingKey := routingKey
                 ContentType := "application/json"
                 Mandatory := false
                 Immediate := false } }] ∧
      handedLetters (PublishWithRetry rs body exchangeName routingKey).1 =
        handedLetters (Publish rs body exchangeName routingKey).1 := by
  have hr : rs.retryCount = 10 := (newRabbitService_fresh env config rs hnew).2.2.2.2.2
  have hc : ¬ (body = none ∨ (exchangeName = "" ∧ routingKey = "")) := by
    intro hc
    revert h
    simp [Publish, hc]
  refine ⟨hr, ?_, ?_⟩
  · simp [Publish, hc, handedLetters, List.filterMap_append, hr]
  · simp [Publish, PublishWithRetry, hc, handedLetters, List.filterMap_append]

theorem publish_letter_carries_retry_count_witness :
    NewRabbitService sampleEnv sampleConfig = .ok sampleService ∧
      handedLetters (Publish sampleService (some [1, 2]) "orders" "created").1 =
        [{ LetterID := 0
           RetryCount := 10
           Body := some [1, 2]
           Envelope :=
             { Exchange := "orders"
               RoutingKey := "created"
               ContentType := "application/json"
               Mandatory := false
               Immediate := false } }] :=
  ⟨sampleService_eq,
    (publish_letter_carries_retry_count sampleEnv sampleConfig sampleService (some [1, 2])
      "orders" "created" sampleService_eq (by decide)).2.1⟩

/-- C12: every accepted call of `Publish` or `PublishWithRetry` makes exactly one call on the
publisher, the one of the same name, handing it one Letter whose body is the argument unchanged
and whose envelope has the exchange and routing key given, content type "application/json",
`Mandatory = false` and `Immediate = false`. -/
theorem accepted_call_hands_one_letter (withRetry : Bool) (rs : RabbitService) (body : Bytes)
    (exchangeName routingKey : String)
    (h : (publishVia withRetry rs body exchangeName routingKey).2 = none) :
    (publishVia withRetry rs body exchangeName routingKey).1.Publisher.calls =
        rs.Publisher.calls ++
          [(if withRetry then PublisherCall.PublishWithRetry else PublisherCall.Publish)
            { LetterID := rs.letterCount
              RetryCount := rs.retryCount
              Body := body
              Envelope :=
                { Exchange := exchangeName
                  RoutingKey := routingKey
                  ContentType := "application/json"
                  Mandatory := false
                  Immediate := false } }] ∧
      handedLetters (publishVia withRetry rs body exchangeName routingKey).1 =
        handedLetters rs ++
          [{ LetterID := rs.letterCount
             RetryCount := rs.retryCount
             Body := body
             Envelope :=
               { Exchange := exchangeName
                 RoutingKey := routingKey
                 ContentType := "application/json"
                 Mandatory := false
                 Immediate := false } }] := by
  have h1 := publishVia_accepted withRetry rs body exchangeName routingKey h
  constructor
  · rw [h1]
  · rw [h1]
    cases withRetry <;> simp [handedLetters, List.filterMap_append]

theorem accepted_call_hands_one_letter_witness :
    (publishVia true sampleService (some []) "" "created").2 = none ∧
      handedLetters (publishVia true sampleService (some []) "" "created").1 =
        [{ LetterID := 0
           RetryCount := 10
           Body := some []
           Envelope :=
             { Exchange := ""
               RoutingKey := "created"
               ContentType := "application/json"
               Mandatory := false
               Immediate := false } }] :=
  ⟨by decide,
    (accepted_call_hands_one_letter true sampleService (some []) "" "created" (by decide)).2⟩

/-! ## Consumer registry -/

theorem GoMap.get_set_same {β : Type} (m : GoMap β) (k : String) (v : β) :
    (m.set k v).get k = some v := by
  simp [GoMap.get, GoMap.set]

theorem find_filter_of_imp {β : Type} (q r : β → Bool) (hqr : ∀ x, q x = true → r x = true) :
    ∀ l : List β, List.find? q (List.filter r l) = List.find? q l := by
  intro l
  induction l with
  | nil => rfl
  | cons x xs ih =>
    cases hr : r x with
    | true =>
      rw [List.filter_cons_of_pos hr]
      cases hq : q x with
      | true => rw [List.find?_cons_of_pos _ hq, List.find?_cons_of_pos _ hq]
      | false =>
        rw [List.find?_cons_of_neg _ (by simp [hq]), List.find?_cons_of_neg _ (by simp [hq])]
        exact ih
    | false =>
      have hq : q x = false := by
        cases hq : q x with
        | true => rw [hqr x hq] at hr; cases hr
        | false => rfl
      rw [List.filter_cons_of_neg (by simp [hr]), List.find?_cons_of_neg _ (by simp [hq])]
      exact ih

theorem GoMap.get_set_other {β : Type} (m : GoMap β) (k k' : String) (v : β) (h : k' ≠ k) :
    (m.set k v).get k' = m.get k' := by
  have hk : ¬ ((k == k') = true) := by
    simp only [beq_iff_eq]
    exact fun e => h e.symm
  unfold GoMap.get GoMap.set
  have hcons : List.find? (fun p : String × β => p.1 == k')
      ((k, v) :: List.filter (fun p => !(p.1 == k)) m) =
      List.find? (fun p : String × β => p.1 == k') (List.filter (fun p => !(p.1 == k)) m) :=
    List.find?_cons_of_neg _ hk
  rw [hcons]
  congr 1
  apply find_filter_of_imp
  intro x hx
  simp only [beq_iff_eq] at hx
  simp only [Bool.not_eq_true', beq_eq_false_iff_ne, ne_eq, hx]
  exact h

theorem getConsumer_of_get (rs : RabbitService) (name : String) :
    (∀ c, rs.consumers.get name = some c → GetConsumer rs name = (some c, none)) ∧
      (rs.consumers.get name = none →
        GetConsumer rs name = (none, some "consumer was not found")) := by
  constructor
  · intro c h
    simp [GetConsumer, h]
  · intro h
    simp [GetConsumer, h]

/-- The consumer `CreateConsumers` stores for a consumer the constructor returned: its name
prefixed with the host name when that is known. -/
theorem createConsumers_registers (env : Env) (configs : GoMap ConsumerConfig) :
    ∀ rs rs' : RabbitService, CreateConsumers env rs configs = (rs', none) →
      (configs.map Prod.fst).Nodup →
      (∀ k cfg, (k, cfg) ∈ configs →
        ∃ c, env.NewConsumerFromConfig cfg rs.ChannelPool = .ok c ∧
          rs'.consumers.get k = some (match env.Hostname with
            | .ok hostName => { c with ConsumerName := hostName ++ "-" ++ c.ConsumerName }
            | .error _ => c)) ∧
      (∀ k, k ∉ configs.map Prod.fst → rs'.consumers.get k = rs.consumers.get k) ∧
      rs'.ChannelPool = rs.ChannelPool := by
  induction configs with
  | nil =>
    intro rs rs' h _
    simp only [CreateConsumers, Prod.mk.injEq, and_true] at h
    subst h
    exact ⟨fun k cfg hm => absurd hm (List.not_mem_nil _), fun _ _ => rfl, rfl⟩
  | cons p rest ih =>
    intro rs rs' h hnd
    obtain ⟨k0, cfg0⟩ := p
    simp only [List.map_cons, List.nodup_cons] at hnd
    obtain ⟨hk0, hrest⟩ := hnd
    simp only [CreateConsumers] at h
    cases hc : env.NewConsumerFromConfig cfg0 rs.ChannelPool with
    | error e =>
      rw [hc] at h
      simp at h
    | ok c0 =>
      rw [hc] at h
      simp only at h
      obtain ⟨i1, i2, i3⟩ := ih _ rs' h hrest
      refine ⟨?_, ?_, i3⟩
      · intro k cfg hm
        rcases List.mem_cons.1 hm with heq | hin
        · cases heq
          refine ⟨c0, hc, ?_⟩
          rw [i2 k0 hk0]
          exact GoMap.get_set_same _ _ _
        · exact i1 k cfg hin
      · intro k hk
        simp only [List.map_cons, List.mem_cons, not_or] at hk
        rw [i2 k hk.2]
        exact GoMap.get_set_other _ _ _ _ hk.1

theorem createConsumers_keys (env : Env) (configs : GoMap ConsumerConfig) :
    ∀ rs rs' : RabbitService, CreateConsumers env rs configs = (rs', none) →
      ∀ k, (k ∈ configs.map Prod.fst ∨ (rs.consumers.get k).isSome = true) →
        (rs'.consumers.get k).isSome = true := by
  induction configs with
  | nil =>
    intro rs rs' h k hk
    simp only [CreateConsumers, Prod.mk.injEq, and_true] at h
    subst h
    rcases hk with hk | hk
    · exact absurd hk (List.not_mem_nil _)
    · exact hk
  | cons p rest ih =>
    intro rs rs' h k hk
    obtain ⟨k0, cfg0⟩ := p
    simp only [CreateConsumers] at h
    cases hc : env.NewConsumerFromConfig cfg0 rs.ChannelPool with
    | error e =>
      rw [hc] at h
      simp at h
    | ok c0 =>
      rw [hc] at h
      simp only at h
      apply ih _ rs' h k
      by_cases hk0 : k = k0
      · right
        subst hk0
        simp only [GoMap.get_set_same, Option.isSome_some]
      · rcases hk with hk | hk
        · simp only [List.map_cons, List.mem_cons] at hk
          rcases hk with hk | hk
          · exact absurd hk hk0
          · exact Or.inl hk
        · right
          simp only [GoMap.get_set_other _ _ _ _ hk0]
          exact hk

/-- C13: `GetConsumer(name)` returns what the registry holds under `name`: the consumer and nil
when there is one, nil and the error "consumer was not found" exactly when there is none.  A
consumer stored under `name` is the one returned afterwards, and storing under another name
changes nothing for `name`.  After a successful `CreateConsumerFromConfig(name)` it returns the
consumer just built; after `CreateConsumers(configs)` returned nil it succeeds for every key of
`configs`, and, the keys of a map being distinct, returns for each key the consumer built from
its config (renamed with the host name). -/
theorem getConsumer_agrees_with_registration (env : Env) (rs : RabbitService) (name : String) :
    (GetConsumer rs name).1 = rs.consumers.get name ∧
      ((GetConsumer rs name).2 ≠ none ↔ rs.consumers.get name = none) ∧
      ((GetConsumer rs name).2 = none ∨
        (GetConsumer rs name).2 = some "consumer was not found") ∧
      (∀ c, GetConsumer { rs with consumers := rs.consumers.set name c } name = (some c, none)) ∧
      (∀ c other, other ≠ name →
        GetConsumer { rs with consumers := rs.consumers.set other c } name =
          GetConsumer rs name) ∧
      (∀ cfg c, rs.Config.ConsumerConfigs.get name = some cfg →
        env.NewConsumerFromConfig cfg rs.ChannelPool = .ok c →
        (CreateConsumerFromConfig env rs name).2 = none ∧
          GetConsumer (CreateConsumerFromConfig env rs name).1 name = (some c, none)) ∧
      (∀ configs rs', CreateConsumers env rs configs = (rs', none) →
        (∀ k, k ∈ configs.map Prod.fst →
          (GetConsumer rs' k).2 = none ∧ (GetConsumer rs' k).1.isSome = true) ∧
        ((configs.map Prod.fst).Nodup →
          ∀ k cfg, (k, cfg) ∈ configs →
            ∃ c, env.NewConsumerFromConfig cfg rs.ChannelPool = .ok c ∧
              GetConsumer rs' k = (some (match env.Hostname with
                | .ok hostName => { c with ConsumerName := hostName ++ "-" ++ c.ConsumerName }
                | .error _ => c), none))) := by
  refine ⟨?_, ?_, ?_, ?_, ?_, ?_, ?_⟩
  · cases h : rs.consumers.get name <;> simp [GetConsumer, h]
  · cases h : rs.consumers.get name <;> simp [GetConsumer, h]
  · cases h : rs.consumers.get name <;> simp [GetConsumer, h]
  · intro c
    simp [GetConsumer, GoMap.get_set_same]
  · intro c other hne
    simp [GetConsumer, GoMap.get_set_other _ _ _ _ (Ne.symm hne)]
  · intro cfg c hcfg hc
    simp [CreateConsumerFromConfig, hcfg, hc, GetConsumer, GoMap.get_set_same]
  · intro configs rs' h
    constructor
    · intro k hk
      have hs := createConsumers_keys env configs rs rs' h k (Or.inl hk)
      cases hg : rs'.consumers.get k with
      | none => rw [hg] at hs; cases hs
      | some c => simp [GetConsumer, hg]
    · intro hnd k cfg hm
      obtain ⟨c, hc, hget⟩ := (createConsumers_registers env configs rs rs' h hnd).1 k cfg hm
      exact ⟨c, hc, (getConsumer_of_get rs' k).1 _ hget⟩

theorem getConsumer_agrees_with_registration_witness :
    sampleService.Config.ConsumerConfigs.get "ackable" =
        some { QueueName := "q1", ConsumerName := "c1", AutoAck := false } ∧
      GetConsumer (CreateConsumerFromConfig sampleEnv sampleService "ackable").1 "ackable" =
        (some { ConsumerName := "c1", errors := Chan.make 1, stopCalls := [],
                stopResult := none }, none) ∧
      GetConsumer sampleService "missing" = (none, some "consumer was not found") :=
  ⟨by decide,
    ((getConsumer_agrees_with_registration sampleEnv sampleService "ackable").2.2.2.2.2.1
      { QueueName := "q1", ConsumerName := "c1", AutoAck := false }
      { ConsumerName := "c1", errors := Chan.make 1, stopCalls := [], stopResult := none }
      (by decide) rfl).2,
    by decide⟩

/-! ## Connection pool and channel pool -/

theorem connectionPool_fill_spec (dial : Nat → Bool) (n : Nat) :
    ∀ cp : Pools.ConnectionPool,
      (∀ host, some host ∈ cp.slots → host.closed = false) →
      (Pools.ConnectionPool.fill dial n cp).slots.length = cp.slots.length + n ∧
        (∀ host, some host ∈ (Pools.ConnectionPool.fill dial n cp).slots →
          host.closed = false) ∧
        (Pools.ConnectionPool.fill dial n cp).stopped = cp.stopped ∧
        (Pools.ConnectionPool.fill dial n cp).Config = cp.Config := by
  induction n with
  | zero =>
    intro cp h
    exact ⟨rfl, h, rfl, rfl⟩
  | succ n ih =>
    intro cp h
    simp only [Pools.ConnectionPool.fill]
    have hopen : ∀ host,
        some host ∈ ((cp.openConnection dial).1.slots ++ [(cp.openConnection dial).2]) →
          host.closed = false := by
      intro host hm
      unfold Pools.ConnectionPool.openConnection at hm
      split at hm
      · simp only [List.mem_append, List.mem_singleton, Option.some.injEq] at hm
        rcases hm with hm | hm
        · exact h host hm
        · rw [hm]
      · simp only [List.mem_append, List.mem_singleton] at hm
        rcases hm with hm | hm
        · exact h host hm
        · cases hm
    obtain ⟨i1, i2, i3, i4⟩ := ih { (cp.openConnection dial).1 with
      slots := (cp.openConnection dial).1.slots ++ [(cp.openConnection dial).2] } hopen
    refine ⟨?_, i2, ?_, ?_⟩
    · rw [i1]
      unfold Pools.ConnectionPool.openConnection
      split <;> simp <;> omega
    · rw [i3]
      unfold Pools.ConnectionPool.openConnection
      split <;> rfl
    · rw [i4]
      unfold Pools.ConnectionPool.openConnection
      split <;> rfl

theorem connectionCount_of_all_open (slots : List (Option Pools.ConnectionHost))
    (hsome : ∀ slot ∈ slots, slot.isSome = true)
    (hopen : ∀ host, some host ∈ slots → host.closed = false) :
    (slots.filter fun slot =>
      match slot with
      | some host => !host.closed
      | none => false) = slots := by
  apply List.filter_eq_self.2
  intro slot hm
  cases slot with
  | none =>
    have := hsome none hm
    cases this
  | some host => simp [hopen host hm]

theorem connectionPool_shutdown_count (cp : Pools.ConnectionPool) :
    cp.Shutdown.ConnectionCount = 0 := by
  unfold Pools.ConnectionPool.ConnectionCount Pools.ConnectionPool.Shutdown
  have : (List.filter (fun slot : Option Pools.ConnectionHost =>
      match slot with
      | some host => !host.closed
      | none => false)
      (cp.slots.map (Option.map fun host => { host with closed := true }))) = [] := by
    apply List.filter_eq_nil_iff.2
    intro slot hm
    obtain ⟨s, _, hs⟩ := List.mem_map.1 hm
    cases s with
    | none => subst hs; simp
    | some host => subst hs; simp
  simp only [this, List.length_nil]
  rfl

theorem connectionPool_shutdown_idem (cp : Pools.ConnectionPool) :
    cp.Shutdown.Shutdown = cp.Shutdown := by
  simp only [Pools.ConnectionPool.Shutdown, List.map_map]
  congr 1
  apply List.map_congr_left
  intro slot _
  cases slot <;> rfl

/-- C14: for every size N, once a connection pool configured with `ConnectionCount = N` has
been initialized with no slot left empty, `ConnectionCount()` is N; after `Shutdown()` it is 0,
and a second `Shutdown()` changes nothing and leaves it at 0. -/
theorem connectionCount_lifecycle (cfg : Pools.PoolConfig) (dial : Nat → Bool)
    (hok : ∀ slot ∈ ((Pools.NewConnectionPool cfg).Initialize dial).slots, slot.isSome = true) :
    ((Pools.NewConnectionPool cfg).Initialize dial).Initialized = true ∧
      ((Pools.NewConnectionPool cfg).Initialize dial).ConnectionCount = cfg.ConnectionCount ∧
      ((Pools.NewConnectionPool cfg).Initialize dial).Shutdown.ConnectionCount = 0 ∧
      ((Pools.NewConnectionPool cfg).Initialize dial).Shutdown.Shutdown.ConnectionCount = 0 ∧
      ((Pools.NewConnectionPool cfg).Initialize dial).Shutdown.Shutdown =
        ((Pools.NewConnectionPool cfg).Initialize dial).Shutdown := by
  obtain ⟨f1, f2, _, _⟩ := connectionPool_fill_spec dial cfg.ConnectionCount
    (Pools.NewConnectionPool cfg) (by
      intro host hm
      simp [Pools.NewConnectionPool] at hm)
  have hinit : (Pools.NewConnectionPool cfg).Initialize dial =
      { Pools.ConnectionPool.fill dial cfg.ConnectionCount (Pools.NewConnectionPool cfg) with
        Initialized := true } := by
    simp [Pools.ConnectionPool.Initialize, Pools.NewConnectionPool]
  refine ⟨?_, ?_, connectionPool_shutdown_count _, connectionPool_shutdown_count _,
    connectionPool_shutdown_idem _⟩
  · rw [hinit]
  · rw [hinit] at hok
    rw [hinit]
    unfold Pools.ConnectionPool.ConnectionCount
    simp only at hok ⊢
    rw [connectionCount_of_all_open _ hok f2, f1]
    simp [Pools.NewConnectionPool]

theorem connectionCount_lifecycle_witness :
    (∀ slot ∈ sampleConnectionPool.slots, slot.isSome = true) ∧
      sampleConnectionPool.ConnectionCount = 2 ∧
      sampleConnectionPool.Shutdown.ConnectionCount = 0 :=
  ⟨by decide,
    (connectionCount_lifecycle samplePoolConfig dialOk (by decide)).2.1,
    (connectionCount_lifecycle samplePoolConfig dialOk (by decide)).2.2.1⟩

/-- Before `Shutdown` the sample pools, initialized, hand out a host. -/
theorem sample_pools_lease :
    sampleConnectionPool.GetConnection.2 = (some { ConnectionID := 0, closed := false }, none) ∧
      sampleChannelPool.GetChannel.2.1.isSome = true ∧
      sampleChannelPool.GetChannel.2.2 = none ∧
      sampleChannelPool.ChannelCount = 3 := by
  decide

/-- C15: after `Shutdown`, the lease operation of a pool fails: on every connection pool,
initialized or not, `GetConnection()` after `Shutdown()` returns a nil host and a non-nil error,
and on every channel pool `GetChannel()` after `Shutdown()` returns a nil host and a non-nil
error; neither call changes the pool. -/
theorem lease_after_shutdown_fails (cp : Pools.ConnectionPool) (chp : Pools.ChannelPool) :
    cp.Shutdown.GetConnection =
        (cp.Shutdown, none, some Pools.connectionPoolShutdownError) ∧
      chp.Shutdown.GetChannel = (chp.Shutdown, none, some Pools.channelPoolShutdownError) ∧
      (∀ (cfg : Pools.PoolConfig) (dial : Nat → Bool),
        ((Pools.NewConnectionPool cfg).Initialize dial).Shutdown.GetConnection.2 =
            (none, some Pools.connectionPoolShutdownError) ∧
          ((Pools.NewChannelPool cfg (Pools.NewConnectionPool cfg)).Initialize
            dial).Shutdown.GetChannel.2 = (none, some Pools.channelPoolShutdownError)) := by
  have h1 : ∀ p : Pools.ConnectionPool, p.Shutdown.GetConnection =
      (p.Shutdown, none, some Pools.connectionPoolShutdownError) := by
    intro p
    simp [Pools.ConnectionPool.GetConnection, Pools.ConnectionPool.Shutdown]
  have h2 : ∀ p : Pools.ChannelPool, p.Shutdown.GetChannel =
      (p.Shutdown, none, some Pools.channelPoolShutdownError) := by
    intro p
    simp [Pools.ChannelPool.GetChannel, Pools.ChannelPool.Shutdown]
  refine ⟨h1 cp, h2 chp, ?_⟩
  intro cfg dial
  rw [h1, h2]
  exact ⟨rfl, rfl⟩

/-! ## `Consumer.GetBatch` -/

theorem getBatchLoop_bound (channelID : Nat) (queue : String) (autoAck : Bool) (n : Nat) :
    ∀ (tag : Nat) (broker broker' : Broker) (acc messages : List Message),
      getBatchLoop channelID queue autoAck n tag broker acc = (broker', .ok messages) →
      messages.length ≤ acc.length + n := by
  induction n with
  | zero =>
    intro tag broker broker' acc messages h
    simp only [getBatchLoop, Prod.mk.injEq, Except.ok.injEq] at h
    rw [← h.2]
    exact le_refl _
  | succ n ih =>
    intro tag broker broker' acc messages h
    simp only [getBatchLoop] at h
    split at h
    · cases h
    · simp only [Prod.mk.injEq, Except.ok.injEq] at h
      rw [← h.2]
      omega
    · have := ih _ _ _ _ _ h
      simp only [List.length_append, List.length_singleton] at this
      omega

theorem getBatchLoop_takes (channelID : Nat) (queue : String) (autoAck : Bool) (n : Nat) :
    ∀ (tag : Nat) (broker : Broker) (acc : List Message) (q : List Bytes),
      broker.get queue = some q →
      ∃ broker' messages,
        getBatchLoop channelID queue autoAck n tag broker acc = (broker', .ok messages) ∧
          messages.map Message.Body = acc.map Message.Body ++ q.take n ∧
          broker'.get queue = some (q.drop n) := by
  induction n with
  | zero =>
    intro tag broker acc q hq
    exact ⟨broker, acc, rfl, by simp, by simpa using hq⟩
  | succ n ih =>
    intro tag broker acc q hq
    cases q with
    | nil =>
      refine ⟨broker, acc, ?_, by simp, by simpa using hq⟩
      simp [getBatchLoop, basicGet, hq]
    | cons body rest =>
      obtain ⟨broker', messages, h1, h2, h3⟩ := ih (tag + 1) (broker.set queue rest)
        (acc ++ [{ Body := body, DeliveryTag := tag, IsAckable := !autoAck,
                   ChannelID := channelID }]) rest (GoMap.get_set_same _ _ _)
      refine ⟨broker', messages, ?_, ?_, ?_⟩
      · simp only [getBatchLoop, basicGet, hq]
        exact h1
      · rw [h2]
        simp
      · rw [h3]
        simp

/-- C16: for every queue name and `autoAck` flag, `GetBatch(queue, n, autoAck)` returns an
error, and no message, when `n ≤ 0`; whatever it returns holds at most `n` messages; and when
`n > 0`, the queue exists and a channel could be leased, it returns without error the first `n`
ready messages of the queue in order, or all of them when the queue holds fewer, leaving the
others on the queue. -/
theorem getBatch_contract (pool : Pools.ChannelPool) (broker : Broker) (queueName : String)
    (n : Int) (autoAck : Bool) :
    (n ≤ 0 →
      GetBatch pool broker queueName n autoAck = (pool, broker, none, some batchSizeError)) ∧
      (∀ messages, (GetBatch pool broker queueName n autoAck).2.2.1 = some messages →
        (messages.length : Int) ≤ n) ∧
      (0 < n → ∀ q pool' chanHost err, broker.get queueName = some q →
        pool.GetChannel = (pool', some chanHost, err) →
        ∃ messages,
          (GetBatch pool broker queueName n autoAck).2.2 = (some messages, none) ∧
            messages.map Message.Body = q.take n.toNat ∧
            messages.length = min n.toNat q.length ∧
            (GetBatch pool broker queueName n autoAck).2.1.get queueName =
              some (q.drop n.toNat)) := by
  refine ⟨?_, ?_, ?_⟩
  · intro hn
    simp [GetBatch, hn]
  · intro messages h
    by_cases hn : n ≤ 0
    · simp [GetBatch, hn] at h
    · simp only [GetBatch, hn, if_false] at h
      split at h
      · rename_i pool' chanHost err hget
        split at h
        · rename_i broker' ms hloop
          simp only [Option.some.injEq] at h
          subst h
          have := getBatchLoop_bound _ _ _ _ _ _ _ _ _ hloop
          simp only [List.length_nil, Nat.zero_add] at this
          omega
        · simp at h
      · simp at h
  · intro hn q pool' chanHost err hq hget
    obtain ⟨broker', messages, h1, h2, h3⟩ :=
      getBatchLoop_takes chanHost.ChannelID queueName autoAck n.toNat 1 broker [] q hq
    refine ⟨messages, ?_, ?_, ?_, ?_⟩
    · simp [GetBatch, Int.not_le.2 hn, hget, h1]
    · simpa using h2
    · have := congrArg List.length h2
      simpa using this
    · simp [GetBatch, Int.not_le.2 hn, hget, h1, h3]

theorem getBatch_contract_witness :
    (0 : Int) < 2 ∧ sampleBroker.get "ConsumerTestQueue" = some [some [1], some [2], some [3]] ∧
      (GetBatch sampleChannelPool sampleBroker "ConsumerTestQueue" (-1) false).2.2 =
        (none, some batchSizeError) ∧
      (GetBatch sampleChannelPool sampleBroker "ConsumerTestQueue" 2 true).2.2.1 =
        some [{ Body := some [1], DeliveryTag := 1, IsAckable := false, ChannelID := 0 },
              { Body := some [2], DeliveryTag := 2, IsAckable := false, ChannelID := 0 }] :=
  ⟨by decide, by decide,
    congrArg (fun r => r.2.2)
      ((getBatch_contract sampleChannelPool sampleBroker "ConsumerTestQueue" (-1) false).1
        (by decide)),
    by decide⟩

/-! ## `ChannelHost.Returns` -/

/-- C17, as stated, fails.  On a host whose `ReturnMessages` stream (capacity 1) holds an unread
entry while a return is pending, `Returns` takes the pending return and parks on its send: it
does not return and the return is not appended.  And on a host whose raw return stream is closed
and drained, `Returns` appends a zero-valued `ReturnMessage` although nothing was pending. -/
theorem returns_counterexample :
    stalledHost.Returns.isReturned = false ∧
      stalledHost.Returns.state.returnMessages.buf = [] ∧
      stalledHost.Returns.state.ReturnMessages = stalledHost.ReturnMessages ∧
      closedReturnsHost.returnMessages.buf = [] ∧
      closedReturnsHost.Returns.state.ReturnMessages.buf =
        [{ ReplyCode := 0, ReplyText := "", Exchange := "", RoutingKey := "", Body := none }] := by
  decide

theorem returns_step_inv (s : ReturnSession) (e : ReturnEvent)
    (hb : s.blocked = false) (hout : s.host.ReturnMessages.buf = [])
    (hcap : 1 ≤ s.host.ReturnMessages.cap) (hopen : s.host.returnMessages.closed = false)
    (hd : s.delivered ++ s.host.returnMessages.buf.map NewReturnMessage =
      s.arrived.map NewReturnMessage) :
    (s.step e).blocked = false ∧ (s.step e).host.ReturnMessages.buf = [] ∧
      1 ≤ (s.step e).host.ReturnMessages.cap ∧ (s.step e).host.returnMessages.closed = false ∧
      (s.step e).delivered ++ (s.step e).host.returnMessages.buf.map NewReturnMessage =
        (s.step e).arrived.map NewReturnMessage := by
  obtain ⟨host, arrived, delivered, blocked⟩ := s
  obtain ⟨chan, cid, connid, ack, em, rm, ce, raw⟩ := host
  obtain ⟨rbuf, rcap, rclosed⟩ := raw
  obtain ⟨obuf, ocap, oclosed⟩ := rm
  simp only at hb hout hcap hopen hd
  subst hb hout hopen
  cases e with
  | arrive r =>
    by_cases hroom : rbuf.length < rcap
    · simp [ReturnSession.step, Chan.send, hroom, hcap, ← hd]
    · simp [ReturnSession.step, Chan.send, hroom, hcap, hd]
  | call =>
    have hlt : 0 < ocap := hcap
    cases rbuf with
    | nil =>
      simp only [List.map_nil, List.append_nil] at hd
      simp [ReturnSession.step, ChannelHost.Returns, Chan.tryRecv, hcap, hd]
    | cons v rest =>
      simp only [List.map_cons] at hd
      simp [ReturnSession.step, ChannelHost.Returns, Chan.tryRecv, Chan.send, hlt, hcap, ← hd]

theorem returns_run_inv (events : List ReturnEvent) :
    ∀ s : ReturnSession, s.blocked = false → s.host.ReturnMessages.buf = [] →
      1 ≤ s.host.ReturnMessages.cap → s.host.returnMessages.closed = false →
      s.delivered ++ s.host.returnMessages.buf.map NewReturnMessage =
        s.arrived.map NewReturnMessage →
      (s.run events).blocked = false ∧
        (s.run events).delivered ++ (s.run events).host.returnMessages.buf.map NewReturnMessage =
          (s.run events).arrived.map NewReturnMessage := by
  induction events with
  | nil =>
    intro s hb _ _ _ hd
    exact ⟨hb, hd⟩
  | cons e rest ih =>
    intro s hb hout hcap hopen hd
    obtain ⟨a, b, c, d, f⟩ := returns_step_inv s e hb hout hcap hopen hd
    exact ih (s.step e) a b c d f

/-- C17 (amended): on a host whose raw return stream has not been closed, each call of `Returns`
takes at most one pending entry from the raw stream without waiting and touches nothing else but
`ReturnMessages`.  If nothing is pending, `ReturnMessages` is left unchanged and the call returns.
If an entry was taken and `ReturnMessages` has room (capacity 1: it holds no unread entry), the
entry is wrapped as a `ReturnMessage`, appended, and the call returns; if `ReturnMessages` is
full, the call parks on the send.  So in every session that starts from a host with both return
streams empty and in which the caller reads the returned stream after every call, no call parks
and what the caller has read, followed by what is still pending on the raw stream, is exactly the
sequence of returns that arrived, each once, in arrival order. -/
theorem returns_forwards_in_order (ch : ChannelHost) (hopen : ch.returnMessages.closed = false) :
    ch.Returns.state.returnMessages.buf = ch.returnMessages.buf.tail ∧
      { ch.Returns.state with
          returnMessages := ch.returnMessages, ReturnMessages := ch.ReturnMessages } = ch ∧
      (ch.returnMessages.buf = [] → ch.Returns = .returned ch) ∧
      (∀ r rest, ch.returnMessages.buf = r :: rest →
        ch.ReturnMessages.buf.length < ch.ReturnMessages.cap →
        ch.Returns =
          .returned { ch with
            returnMessages := { ch.returnMessages with buf := rest }
            ReturnMessages :=
              { ch.ReturnMessages with buf := ch.ReturnMessages.buf ++ [NewReturnMessage r] } }) ∧
      (∀ r rest, ch.returnMessages.buf = r :: rest →
        ch.ReturnMessages.cap ≤ ch.ReturnMessages.buf.length →
        ch.Returns =
          .blocked { ch with returnMessages := { ch.returnMessages with buf := rest } }) ∧
      (ch.returnMessages.buf = [] → ch.ReturnMessages.buf = [] → 1 ≤ ch.ReturnMessages.cap →
        ∀ events : List ReturnEvent,
          ((ReturnSession.start ch).run events).blocked = false ∧
            ((ReturnSession.start ch).run events).delivered ++
                ((ReturnSession.start ch).run events).host.returnMessages.buf.map
                  NewReturnMessage =
              ((ReturnSession.start ch).run events).arrived.map NewReturnMessage) := by
  refine ⟨?_, ?_, ?_, ?_, ?_, ?_⟩
  · obtain ⟨chan, cid, connid, ack, em, rm, ce, raw⟩ := ch
    obtain ⟨rbuf, rcap, rclosed⟩ := raw
    simp only at hopen
    subst hopen
    cases rbuf with
    | nil => simp [ChannelHost.Returns, Chan.tryRecv, Outcome.state]
    | cons v rest =>
      by_cases hroom : rm.buf.length < rm.cap <;>
        simp [ChannelHost.Returns, Chan.tryRecv, Chan.send, Outcome.state, hroom]
  · obtain ⟨chan, cid, connid, ack, em, rm, ce, raw⟩ := ch
    obtain ⟨rbuf, rcap, rclosed⟩ := raw
    simp only at hopen
    subst hopen
    cases rbuf with
    | nil => simp [ChannelHost.Returns, Chan.tryRecv, Outcome.state]
    | cons v rest =>
      by_cases hroom : rm.buf.length < rm.cap <;>
        simp [ChannelHost.Returns, Chan.tryRecv, Chan.send, Outcome.state, hroom]
  · intro h
    simp [ChannelHost.Returns, Chan.tryRecv, h, hopen]
  · intro r rest h hroom
    obtain ⟨chan, cid, connid, ack, em, rm, ce, raw⟩ := ch
    obtain ⟨rbuf, rcap, rclosed⟩ := raw
    simp only at h hroom
    subst h
    simp [ChannelHost.Returns, Chan.tryRecv, Chan.send, hroom]
  · intro r rest h hfull
    obtain ⟨chan, cid, connid, ack, em, rm, ce, raw⟩ := ch
    obtain ⟨rbuf, rcap, rclosed⟩ := raw
    simp only at h hfull
    subst h
    simp [ChannelHost.Returns, Chan.tryRecv, Chan.send, Nat.not_lt.2 hfull]
  · intro hraw hout hcap events
    exact returns_run_inv events (ReturnSession.start ch) rfl hout hcap hopen
      (by simp [ReturnSession.start, hraw])

theorem returns_forwards_in_order_witness :
    freshHost.returnMessages.closed = false ∧
      ((ReturnSession.start freshHost).run
        [ReturnEvent.arrive sampleReturn, ReturnEvent.call, ReturnEvent.arrive otherReturn,
          ReturnEvent.call, ReturnEvent.call]).delivered =
        [NewReturnMessage sampleReturn, NewReturnMessage otherReturn] ∧
      ((ReturnSession.start freshHost).run
        [ReturnEvent.arrive sampleReturn, ReturnEvent.call, ReturnEvent.arrive otherReturn,
          ReturnEvent.call, ReturnEvent.call]).blocked = false :=
  ⟨rfl, by decide,
    ((returns_forwards_in_order freshHost rfl).2.2.2.2.2 rfl rfl (by decide)
      [ReturnEvent.arrive sampleReturn, ReturnEvent.call, ReturnEvent.arrive otherReturn,
        ReturnEvent.call, ReturnEvent.call]).1⟩

end TurboCookedRabbit
